import Mathlib

/-!
Verification of the dynamic configuration layer of shira-gui
(`shira-modules/DynamicConfigs.py`): a shallow embedding of the
`DynamicDict` / `TranslatorService` / `APIBased` / `NowUsing` /
`Translator` / `Settings` data model, its serializer
(`dataclass_to_dict` / `dict_to_dataclass`) and the persistence
gateway (`YAMLConfigHandler.load_settings`), together with theorems
settling the specification's claims about them.

Modelling conventions:
* Python values are embedded in the inductive type `Val`.  Python dicts
  are association lists in insertion order (Python dicts preserve
  insertion order); floats are embedded as rationals; `pathlib.Path`
  values are embedded by their absolute posix string (`absolute()
  .as_posix()` is the identity on them); `datetime` values by their
  ISO string.
* Exceptions are `Except PyErr`; `ValueError`, `AttributeError`,
  `KeyError` and `TypeError` are the kinds the modelled code raises.
* `DynamicDict` is represented by its backing store `_data`, an
  association list `List (String × Val)`; the wrapper object appears in
  `Val` as `Val.dyn`.
-/

inductive PyErr : Type where
  | valueError (msg : String)
  | attributeError (msg : String)
  | keyError (key : String)
  | typeError (msg : String)
  | otherError (msg : String)
deriving DecidableEq, Repr

/-- `str(e)` for a caught exception `e`: `str` of a `KeyError` includes the
quoted key, the other kinds carry their message verbatim. -/
def PyErr.str : PyErr → String
  | .valueError m => m
  | .attributeError m => m
  | .keyError k => "'" ++ k ++ "'"
  | .typeError m => m
  | .otherError m => m

mutual
/-- The universe of Python runtime values the configuration layer
manipulates: scalars, plain dicts, lists, `DynamicDict` wrappers
(`dyn`), `TranslatorService` instances, `Path` and `datetime` objects. -/
inductive Val : Type where
  | none : Val
  | str : String → Val
  | int : Int → Val
  | bool : Bool → Val
  | float : Rat → Val
  | list : List Val → Val
  | dict : List (String × Val) → Val
  | dyn : List (String × Val) → Val
  | service : TranslatorService → Val
  | path : String → Val
  | datetime : String → Val

/-- `TranslatorService`: the five declared required fields (each defaulting
to `None`), plus the `_extra_fields` side mapping. -/
inductive TranslatorService : Type where
  | mk : (service_name key request_form client_type base_url : Val) →
      (extra_fields : List (String × Val)) → TranslatorService
end

/-- Python `v == "lit"` for a string literal: true exactly when `v` is the
equal string (`==` between a non-string value and a string is `False`). -/
def Val.eqStr (v : Val) (lit : String) : Bool :=
  match v with
  | .str s => s = lit
  | _ => false

def TranslatorService.service_name : TranslatorService → Val
  | .mk v _ _ _ _ _ => v

def TranslatorService.key : TranslatorService → Val
  | .mk _ v _ _ _ _ => v

def TranslatorService.request_form : TranslatorService → Val
  | .mk _ _ v _ _ _ => v

def TranslatorService.client_type : TranslatorService → Val
  | .mk _ _ _ v _ _ => v

def TranslatorService.base_url : TranslatorService → Val
  | .mk _ _ _ _ v _ => v

def TranslatorService.extra_fields : TranslatorService → List (String × Val)
  | .mk _ _ _ _ _ e => e

/-- Association-list lookup, first match: Python `d[k]` / `k in d`. -/
def lookupEntries : List (String × Val) → String → Option Val
  | [], _ => Option.none
  | (k', v) :: es, k => if k' = k then some v else lookupEntries es k

/-- Python `k in d`. -/
def hasKey (es : List (String × Val)) (k : String) : Bool :=
  (lookupEntries es k).isSome

/-- Python `d.get(k)` (default `None`). -/
def pyGet (es : List (String × Val)) (k : String) : Val :=
  (lookupEntries es k).getD Val.none

/-- Python `d[k] = v`: replace the value at an existing key in place,
else append the new pair at the end. -/
def setEntry : List (String × Val) → String → Val → List (String × Val)
  | [], k, v => [(k, v)]
  | (k', v') :: es, k, v =>
      if k' = k then (k, v) :: es else (k', v') :: setEntry es k v

/-- Python `del d[k]` (the caller has checked the key exists). -/
def removeKey : List (String × Val) → String → List (String × Val)
  | [], _ => []
  | (k', v') :: es, k => if k' = k then es else (k', v') :: removeKey es k

/-- Python `d.update(e)`: fold `d[k] = v` over the entries of `e`. -/
def pyUpdate (d : List (String × Val)) : List (String × Val) → List (String × Val)
  | [] => d
  | (k, v) :: es => pyUpdate (setEntry d k v) es

/-- The `REQUIRED_FIELDS` class attribute.  The source stores it as a set;
Python set iteration order is unspecified, and no theorem below depends on
the order, so the literal's order is kept. -/
def TranslatorService.REQUIRED_FIELDS : List String :=
  ["service_name", "key", "request_form", "client_type", "base_url"]

/-- `hasattr(self, name)` on a `TranslatorService`: the five dataclass
fields and `_extra_fields` are instance attributes, and `__getattr__`
answers for the extra fields. -/
def TranslatorService.hasattrB (s : TranslatorService) (name : String) : Bool :=
  name ∈ TranslatorService.REQUIRED_FIELDS || name == "_extra_fields" ||
    hasKey s.extra_fields name

/-- `TranslatorService.__post_init__`: loops over `REQUIRED_FIELDS` raising
`ValueError` when `hasattr` fails for one of them, then checks the
`client_type`-specific rule (`'openai'` requires a `'model'` extra field). -/
def TranslatorService.post_init (s : TranslatorService) : Except PyErr TranslatorService :=
  match TranslatorService.REQUIRED_FIELDS.find? (fun f => ! s.hasattrB f) with
  | some f => .error (.valueError ("'" ++ f ++ "' field is required"))
  | Option.none =>
      if s.client_type.eqStr "openai" && ! hasKey s.extra_fields "model" then
        .error (.valueError "OpenAI client requires 'model' field")
      else
        .ok s

/-- Constructing `TranslatorService(...)` directly: the dataclass `__init__`
stores the given fields (each defaulting to `None` when omitted) and then
runs `__post_init__`. -/
def TranslatorService.construct (service_name key request_form client_type base_url : Val)
    (extra_fields : List (String × Val)) : Except PyErr TranslatorService :=
  TranslatorService.post_init
    (TranslatorService.mk service_name key request_form client_type base_url extra_fields)

/-- `TranslatorService.to_dict`: the required fields (iterated in
`REQUIRED_FIELDS` order), then `result.update(self._extra_fields)`. -/
def TranslatorService.to_dict (s : TranslatorService) : List (String × Val) :=
  pyUpdate
    [("service_name", s.service_name), ("key", s.key),
     ("request_form", s.request_form), ("client_type", s.client_type),
     ("base_url", s.base_url)]
    s.extra_fields

/-- The record `TranslatorService.from_dict` builds before `__post_init__`
runs: each required field is `data.get(name)` (so `None` when the key is
absent), everything else lands in `_extra_fields` in input order. -/
def TranslatorService.from_dict_raw (data : List (String × Val)) : TranslatorService :=
  TranslatorService.mk (pyGet data "service_name") (pyGet data "key")
    (pyGet data "request_form") (pyGet data "client_type") (pyGet data "base_url")
    (data.filter (fun kv => kv.1 ∉ TranslatorService.REQUIRED_FIELDS))

/-- `TranslatorService.from_dict(data)`: split `data` into required and
extra fields and construct (running `__post_init__`). -/
def TranslatorService.from_dict (data : List (String × Val)) : Except PyErr TranslatorService :=
  TranslatorService.post_init (TranslatorService.from_dict_raw data)

/-- Attribute read on a `TranslatorService` for a data attribute: the five
declared fields are instance attributes; any other name is answered by
`__getattr__` from `_extra_fields`, raising `AttributeError` when absent.
(The internal `_extra_fields` slot and method attributes are not data
attributes and are not modelled.) -/
def TranslatorService.getattrVal (s : TranslatorService) (name : String) : Except PyErr Val :=
  if name = "service_name" then .ok s.service_name
  else if name = "key" then .ok s.key
  else if name = "request_form" then .ok s.request_form
  else if name = "client_type" then .ok s.client_type
  else if name = "base_url" then .ok s.base_url
  else
    match lookupEntries s.extra_fields name with
    | some v => .ok v
    | Option.none =>
        .error (.attributeError ("'TranslatorService' has no attribute '" ++ name ++ "'"))

/-- The `_convert_value` marker test:
`"__type__" in value and value["__type__"] == "TranslatorService"`. -/
def isTSMarker (es : List (String × Val)) : Bool :=
  match lookupEntries es "__type__" with
  | some v => v.eqStr "TranslatorService"
  | Option.none => false

mutual
/-- `DynamicDict._convert_value`: a dict carrying the
`__type__ = "TranslatorService"` marker decodes to a service (`KeyError`
when the marker dict has no `value` key, `AttributeError` when the payload
is not a mapping, mirroring `data.get` on a non-dict); any other dict
becomes a `DynamicDict` with recursively converted values; a list has its
elements converted recursively; everything else passes through. -/
def convertValue : Val → Except PyErr Val
  | .dict es =>
      if isTSMarker es then
        match lookupEntries es "value" with
        | some (.dict payload) => (TranslatorService.from_dict payload).map Val.service
        | some _ => .error (.attributeError "object has no attribute 'get'")
        | Option.none => .error (.keyError "value")
      else
        (convertEntries es).map Val.dyn
  | .list xs => (convertList xs).map Val.list
  | v => .ok v

/-- Elementwise `_convert_value` over a list. -/
def convertList : List Val → Except PyErr (List Val)
  | [] => .ok []
  | x :: xs => do
      let x' ← convertValue x
      let xs' ← convertList xs
      .ok (x' :: xs')

/-- `DynamicDict.__init__`: `_convert_value` applied to every value of the
input mapping, keys and order kept. -/
def convertEntries : List (String × Val) → Except PyErr (List (String × Val))
  | [] => .ok []
  | (k, v) :: es => do
      let v' ← convertValue v
      let es' ← convertEntries es
      .ok ((k, v') :: es')
end

namespace DynamicDict

/-- `DynamicDict.__setitem__`: a dict value is wrapped as
`DynamicDict(value)` (whose `__init__` converts each entry's value with
`_convert_value`); any other value — lists and marker dicts included — is
stored verbatim. -/
def setitem (d : List (String × Val)) (k : String) (v : Val) :
    Except PyErr (List (String × Val)) :=
  match v with
  | .dict es => (convertEntries es).map (fun ce => setEntry d k (.dyn ce))
  | _ => .ok (setEntry d k v)

/-- `DynamicDict.__setattr__` for a name other than the backing-store slot
`_data` (assigning `_data` itself replaces the whole store and is not a
data mutation): the same branch as `__setitem__`. -/
def setattr (d : List (String × Val)) (name : String) (v : Val) :
    Except PyErr (List (String × Val)) :=
  match v with
  | .dict es => (convertEntries es).map (fun ce => setEntry d name (.dyn ce))
  | _ => .ok (setEntry d name v)

/-- `DynamicDict.update(other)`: `self[key] = value` for each pair of
`other` in order (a `DynamicDict` argument contributes its `_data`;
keyword overrides follow the same path and are covered by the same
entry list). -/
def update (d : List (String × Val)) : List (String × Val) →
    Except PyErr (List (String × Val))
  | [] => .ok d
  | (k, v) :: rest => do update (← setitem d k v) rest

/-- `DynamicDict.setdefault(key, default)`: when the key is absent the
default is stored after `_convert_value`; the stored mapping is returned. -/
def setdefault (d : List (String × Val)) (k : String) (v : Val) :
    Except PyErr (List (String × Val)) :=
  if hasKey d k then .ok d
  else (convertValue v).map (setEntry d k)

/-- `DynamicDict.__getattr__` / `__getitem__` data read. -/
def getattr (d : List (String × Val)) (name : String) : Except PyErr Val :=
  match lookupEntries d name with
  | some v => .ok v
  | Option.none =>
      .error (.attributeError ("'DynamicDict' object has no attribute '" ++ name ++ "'"))

end DynamicDict

mutual
/-- The transformation `DynamicDict.to_dict` applies to each stored value:
a nested `DynamicDict` becomes a plain dict recursively, a
`TranslatorService` becomes its tagged wrapper, and anything else — lists
included, whatever they contain — passes through verbatim. -/
def toDictVal : Val → Val
  | .dyn es => .dict (toDictEntries es)
  | .service s =>
      .dict [("__type__", .str "TranslatorService"), ("value", .dict s.to_dict)]
  | v => v

/-- `DynamicDict.to_dict` over the backing store. -/
def toDictEntries : List (String × Val) → List (String × Val)
  | [] => []
  | (k, v) :: es => (k, toDictVal v) :: toDictEntries es
end

namespace APIBased

/-- `APIBased.DEFAULT_SERVICES`, verbatim from the source. -/
def DEFAULT_SERVICES : List (String × List (String × Val)) :=
  [("DeepL",
    [("service_name", .str "DeepL"),
     ("key", .none),
     ("request_form", .str "placeholder"),
     ("client_type", .str "rest"),
     ("base_url", .str "https://api-free.deepl.com/v2/translate"),
     ("headers_template", .dict [("Authorization", .str "DeepL-Auth-Key {api_key}")]),
     ("data_template", .dict [("target_lang", .str "KO")])]),
   ("DeepSeek",
    [("service_name", .str "DeepSeek"),
     ("key", .none),
     ("request_form", .none),
     ("client_type", .str "openai"),
     ("base_url", .str "https://api.deepseek.com"),
     ("model", .str "deepseek-chat"),
     ("temperature", .float 1.2),
     ("system_prompt", .str "\n                Translate following texts to Korean. Answer in \"Speaker: Text\" format. \n                Don't compress conversations arbitrarily. The \"Speaker: Text\" pair I provide and the \"Speaker: Text\" pair in the response must match."),
     ("headers_template", .dict []),
     ("data_template", .dict [])])]

/-- The loop of `APIBased.__init__` that builds `default_data`:
`TranslatorService.from_dict` of each entry of `DEFAULT_SERVICES`. -/
def buildDefaults : List (String × List (String × Val)) →
    Except PyErr (List (String × Val))
  | [] => .ok []
  | (n, cfg) :: rest => do
      let s ← TranslatorService.from_dict cfg
      let tail ← buildDefaults rest
      .ok ((n, Val.service s) :: tail)

/-- `APIBased.__init__(data)`: populate `default_data` from
`DEFAULT_SERVICES`, overlay `data` with `dict.update`, then run
`DynamicDict.__init__` (which converts every value with
`_convert_value`).  `data = None` / absent is the empty overlay. -/
def construct (data : List (String × Val)) : Except PyErr (List (String × Val)) := do
  let defaults ← buildDefaults DEFAULT_SERVICES
  convertEntries (pyUpdate defaults data)

/-- `APIBased.add_service(service_data)`: decode the service, then store it
under its `service_name` (which the claims use only with string names; a
non-string name would become a non-string dict key). -/
def add_service (d : List (String × Val)) (service_data : List (String × Val)) :
    Except PyErr (List (String × Val)) := do
  let s ← TranslatorService.from_dict service_data
  match s.service_name with
  | .str n => DynamicDict.setitem d n (.service s)
  | _ => .error (.typeError "unhashable or non-string service name is not modelled")

/-- `APIBased.remove_service(service_name)`: delete the entry, else
`KeyError`. -/
def remove_service (d : List (String × Val)) (n : String) :
    Except PyErr (List (String × Val)) :=
  if hasKey d n then .ok (removeKey d n)
  else .error (.keyError ("Service '" ++ n ++ "' not found."))

end APIBased

/-- The value conversion in `DynamicDataclass.__setattr__` (applied both
when the dataclass `__init__` assigns a declared field and when a dynamic
field is assigned): a dict value becomes `DynamicDict(value)` — whose
`__init__` runs `_convert_value` on each entry — everything else is stored
unchanged. -/
def DynamicDataclass.wrapValue (v : Val) : Except PyErr Val :=
  match v with
  | .dict es => (convertEntries es).map Val.dyn
  | _ => .ok v

/-- The snapshot of a `Translator` node that `NowUsing` resolution reads
through its `_parent_translator` back-reference: the `api_based` backing
store and `local_llm.models`.  The Python reference is to the live parent
object; no claim below mutates the parent after wiring, so a snapshot is
faithful for all of them. -/
structure TransParent : Type where
  api_based : List (String × Val)
  local_llm_models : Val

/-- `NowUsing`: the two selector slots (`Optional[str]`-annotated, but the
annotation is not enforced, so the slots hold arbitrary values), the
back-reference, and the inherited `_dynamic_fields` side mapping. -/
structure NowUsing : Type where
  _service_category : Val
  _service_name : Val
  _parent_translator : Option TransParent
  _dynamic_fields : List (String × Val)

/-- `NowUsing.__post_init__`: a `None` selector falls back to the fixed
default (`'api_based'` / `'DeepSeek'`). -/
def NowUsing.post_init (nu : NowUsing) : NowUsing :=
  { nu with
    _service_category :=
      match nu._service_category with | .none => .str "api_based" | v => v,
    _service_name :=
      match nu._service_name with | .none => .str "DeepSeek" | v => v }

/-- `NowUsing(_service_category=cat, _service_name=nm)`: the dataclass
`__init__` assigns each slot through `__setattr__` (wrapping dict values),
leaves the back-reference and side mapping at their defaults, then runs
`__post_init__`. -/
def NowUsing.construct (cat nm : Val) : Except PyErr NowUsing := do
  let c ← DynamicDataclass.wrapValue cat
  let n ← DynamicDataclass.wrapValue nm
  .ok (NowUsing.post_init ⟨c, n, Option.none, []⟩)

/-- `NowUsing()` with every argument defaulted. -/
def NowUsing.mkDefault : NowUsing :=
  ⟨.str "api_based", .str "DeepSeek", Option.none, []⟩

/-- `NowUsing.to_dict`: the two selector slots only — never a resolved
descriptor. -/
def NowUsing.to_dict (nu : NowUsing) : List (String × Val) :=
  [("category", nu._service_category), ("name", nu._service_name)]

/-- `NowUsing.__setattr__`: the four internal slot names assign through
`DynamicDataclass.__setattr__` (which wraps dict values); `category` and
`name` assign the corresponding selector slot through the same path; every
other name raises `AttributeError`.  A direct `Val` assignment to
`_parent_translator` or `_dynamic_fields` would replace typed wiring state
that this model keeps structurally; no modelled code path performs one, so
it is reported as a type error here. -/
def NowUsing.setattr (nu : NowUsing) (name : String) (v : Val) : Except PyErr NowUsing :=
  if name = "_service_category" then
    (DynamicDataclass.wrapValue v).map (fun w => { nu with _service_category := w })
  else if name = "_service_name" then
    (DynamicDataclass.wrapValue v).map (fun w => { nu with _service_name := w })
  else if name = "_parent_translator" || name = "_dynamic_fields" then
    .error (.typeError "direct assignment of a wiring slot is not modelled")
  else if name = "category" then
    (DynamicDataclass.wrapValue v).map (fun w => { nu with _service_category := w })
  else if name = "name" then
    (DynamicDataclass.wrapValue v).map (fun w => { nu with _service_name := w })
  else
    .error (.attributeError "Cannot set attributes directly on NowUsing instance")

/-- `str(v)` where the source interpolates a value into an error message
(`f"..."`); only scalar selector values reach these messages in the
claims, so object `repr`s are abbreviated. -/
def Val.pyStr : Val → String
  | .none => "None"
  | .str s => s
  | .int n => toString n
  | .bool true => "True"
  | .bool false => "False"
  | _ => "<object>"

/-- Dict lookup with an arbitrary value as key (`coll[self._service_name]`
/ `.get(...)`): the stores are string-keyed, so only an equal string key
matches; a non-string hashable key (e.g. `None`) misses.  (An unhashable
key would raise `TypeError`; no claim exercises one.) -/
def lookupValKey (es : List (String × Val)) (k : Val) : Option Val :=
  match k with
  | .str s => lookupEntries es s
  | _ => Option.none

/-- `getattr(service, name)` for the object a `NowUsing` resolves: a
`TranslatorService` answers from its fields and extras, a `DynamicDict`
from its store; data attributes of other values are not defined (methods
are not modelled). -/
def Val.getattrPy (v : Val) (name : String) : Except PyErr Val :=
  match v with
  | .service s => s.getattrVal name
  | .dyn es => DynamicDict.getattr es name
  | _ => .error (.attributeError ("object has no attribute '" ++ name ++ "'"))

/-- `NowUsing.__getattr__` after its first branch (the four internal slot
names are instance attributes, found before `__getattr__` runs; `category`
and `name` are properties, likewise): unset selectors, a missing
back-reference, an invalid category and a failed lookup each raise
`ValueError`; otherwise the read is forwarded to the resolved service. -/
def NowUsing.getattrF (nu : NowUsing) (name : String) : Except PyErr Val :=
  match nu._service_category, nu._service_name with
  | .none, _ =>
      .error (.valueError "Translation service not set. Please set category and name first.")
  | _, .none =>
      .error (.valueError "Translation service not set. Please set category and name first.")
  | cat, nm =>
      if cat.eqStr "api_based" then
        match nu._parent_translator with
        | Option.none => .error (.valueError "Parent translator reference not set")
        | some p =>
            match lookupValKey p.api_based nm with
            | Option.none =>
                .error (.valueError
                  ("Service '" ++ nm.pyStr ++ "' not found in api_based services"))
            | some svc => svc.getattrPy name
      else if cat.eqStr "local_llm" then
        match nu._parent_translator with
        | Option.none => .error (.valueError "Parent translator reference not set")
        | some p =>
            match p.local_llm_models with
            | .dyn es =>
                match lookupValKey es nm with
                | Option.none =>
                    .error (.valueError
                      ("Service '" ++ nm.pyStr ++ "' not found in local_llm services"))
                | some svc => svc.getattrPy name
            | .dict es =>
                match lookupValKey es nm with
                | Option.none =>
                    .error (.valueError
                      ("Service '" ++ nm.pyStr ++ "' not found in local_llm services"))
                | some svc => svc.getattrPy name
            | _ => .error (.attributeError "object has no attribute 'get'")
      else
        .error (.valueError ("Invalid service category: " ++ cat.pyStr))

/-- `LLMSettings`: the `models` mapping (wrapped as a `DynamicDict` by the
constructor) plus the inherited side mapping. -/
structure LLMSettings : Type where
  models : Val
  _dynamic_fields : List (String × Val)

/-- `LLMSettings(models=v)`: the constructor assigns through
`DynamicDataclass.__setattr__`, wrapping a dict argument. -/
def LLMSettings.construct (models : Val) : Except PyErr LLMSettings := do
  .ok ⟨← DynamicDataclass.wrapValue models, []⟩

/-- `LLMSettings()` (the default factory yields `models = {}`, wrapped to
an empty `DynamicDict`). -/
def LLMSettings.mkDefault : LLMSettings := ⟨.dyn [], []⟩

/-- `Translator`: the `APIBased` collection (by its backing store), the
`local_llm` settings, the selector, and the side mapping. -/
structure Translator : Type where
  api_based : List (String × Val)
  local_llm : LLMSettings
  now_using : NowUsing
  _dynamic_fields : List (String × Val)

/-- `Translator(api_based=…, local_llm=…, now_using=…)` followed by
`Translator.__post_init__`, which wires
`now_using._parent_translator = self` (modelled as the parent snapshot). -/
def Translator.construct (api : List (String × Val)) (llm : LLMSettings)
    (nu : NowUsing) (dyns : List (String × Val) := []) : Translator :=
  ⟨api, llm, { nu with _parent_translator := some ⟨api, llm.models⟩ }, dyns⟩

/-- `Translator()` with all default factories. -/
def Translator.mkDefault : Except PyErr Translator := do
  let api ← APIBased.construct []
  .ok (Translator.construct api LLMSettings.mkDefault NowUsing.mkDefault)

/-- `Settings`: the three optional path fields (arbitrary runtime values,
`None` by default), the nested `Translator`, and the side mapping. -/
structure Settings : Type where
  js_path : Val
  js_scripts_path : Val
  work_dir : Val
  translator : Translator
  _dynamic_fields : List (String × Val)

/-- `dataclass_to_dict` on a non-dataclass value — the branch taken for
values of the `_dynamic_fields` side mapping and for entries of a plain
dict field: a `DynamicDict` becomes its `to_dict`, a `TranslatorService`
its tagged wrapper, anything else — `Path` and `datetime` objects, lists,
plain dicts — is returned verbatim.  This coincides with the value
transformation of `DynamicDict.to_dict`. -/
def dataclass_to_dict_value : Val → Val := toDictVal

/-- `dataclass_to_dict`'s declared-field branch for a field holding a
plain runtime value (the `NowUsing` / nested-dataclass branches are taken
at the typed structures below): `DynamicDict` → `to_dict`; plain dict →
entrywise `dataclass_to_dict`; `TranslatorService` → tagged wrapper;
`Path` → tagged absolute-posix wrapper; everything else (lists included,
whatever their elements) verbatim. -/
def dataclass_to_dict_field : Val → Val
  | .dyn es => .dict (toDictEntries es)
  | .dict es => .dict (es.map (fun kv => (kv.1, dataclass_to_dict_value kv.2)))
  | .service s =>
      .dict [("__type__", .str "TranslatorService"), ("value", .dict s.to_dict)]
  | .path p => .dict [("__type__", .str "Path"), ("value", .str p)]
  | v => v

/-- The final loop of `dataclass_to_dict`: merge every `_dynamic_fields`
entry except `_parent_translator` into the result, each value through the
generic `dataclass_to_dict`. -/
def encodeDynamics (dyns : List (String × Val)) : List (String × Val) :=
  (dyns.filter (fun kv => kv.1 ≠ "_parent_translator")).map
    (fun kv => (kv.1, dataclass_to_dict_value kv.2))

/-- `dataclass_to_dict` on an `LLMSettings` node: the declared `models`
field (the `_dynamic_fields` / `_parent_translator` names are skipped),
then the dynamic-fields merge. -/
def dataclass_to_dict_LLMSettings (l : LLMSettings) : Val :=
  .dict (pyUpdate [("models", dataclass_to_dict_field l.models)]
    (encodeDynamics l._dynamic_fields))

/-- `dataclass_to_dict` on a `Translator` node: `api_based` takes the
`DynamicDict` branch, `local_llm` the nested-dataclass branch, `now_using`
the `NowUsing` branch (its `to_dict`), then the dynamic-fields merge. -/
def dataclass_to_dict_Translator (t : Translator) : Val :=
  .dict (pyUpdate
    [("api_based", .dict (toDictEntries t.api_based)),
     ("local_llm", dataclass_to_dict_LLMSettings t.local_llm),
     ("now_using", .dict t.now_using.to_dict)]
    (encodeDynamics t._dynamic_fields))

/-- `dataclass_to_dict` on a `Settings` root: the three path-holding
fields, the nested `Translator`, then the dynamic-fields merge. -/
def dataclass_to_dict_Settings (s : Settings) : Val :=
  .dict (pyUpdate
    [("js_path", dataclass_to_dict_field s.js_path),
     ("js_scripts_path", dataclass_to_dict_field s.js_scripts_path),
     ("work_dir", dataclass_to_dict_field s.work_dir),
     ("translator", dataclass_to_dict_Translator s.translator)]
    (encodeDynamics s._dynamic_fields))

/-- The declared-field branch of `dict_to_dataclass` for a field whose
declared type is neither `APIBased` nor a dataclass: a dict value carrying
`__type__` decodes by tag (`"TranslatorService"` → service decode,
`"Path"` → `Path(value)`, any other tag unwraps `value` verbatim;
`KeyError` when the `value` key is absent); a dict without the tag
recurses into the non-dataclass field type and comes back verbatim; a
non-dict passes verbatim. -/
def dict_to_dataclass_fieldVal (v : Val) : Except PyErr Val :=
  match v with
  | .dict es =>
      match lookupEntries es "__type__" with
      | some tag =>
          if tag.eqStr "TranslatorService" then
            match lookupEntries es "value" with
            | some (.dict payload) => (TranslatorService.from_dict payload).map Val.service
            | some _ => .error (.attributeError "object has no attribute 'get'")
            | Option.none => .error (.keyError "value")
          else if tag.eqStr "Path" then
            match lookupEntries es "value" with
            | some (.str p) => .ok (.path p)
            | some _ =>
                .error (.typeError "argument should be a str or an os.PathLike object")
            | Option.none => .error (.keyError "value")
          else
            match lookupEntries es "value" with
            | some pv => .ok pv
            | Option.none => .error (.keyError "value")
      | Option.none => .ok (.dict es)
  | v => .ok v

/-- The declared fields of `NowUsing` (base-class field first, as
`dataclasses.fields` lists them). -/
def NowUsingFields : List String :=
  ["_dynamic_fields", "_service_category", "_service_name", "_parent_translator"]

/-- The first loop of `dict_to_dataclass(data, NowUsing)`: collect the
internal selector init-arguments and stash every non-declared key (in
particular the serialized `category` / `name`) for post-construction
assignment.  A declared-field key with a dict value takes the special
`cls == NowUsing` branch, which reads only `category` / `name` out of that
dict into the selector arguments; a non-dict value for a selector slot is
its init-argument; a non-dict value for a wiring slot is a corner no
modelled document produces. -/
def nowUsingCollect : List (String × Val) → Option Val → Option Val →
    List (String × Val) → Except PyErr (Option Val × Option Val × List (String × Val))
  | [], c, n, acc => .ok (c, n, acc.reverse)
  | (k, v) :: rest, c, n, acc =>
      if k ∈ NowUsingFields then
        match v with
        | .dict es =>
            nowUsingCollect rest
              ((lookupEntries es "category").elim c some)
              ((lookupEntries es "name").elim n some) acc
        | _ =>
            if k = "_service_category" then nowUsingCollect rest (some v) n acc
            else if k = "_service_name" then nowUsingCollect rest c (some v) acc
            else .error (.typeError "non-mapping value for a wiring slot is not modelled")
      else nowUsingCollect rest c n ((k, v) :: acc)

/-- `dict_to_dataclass(data, NowUsing)`: collect, construct (running
`__post_init__`), then assign each stashed dynamic key through
`NowUsing.__setattr__` — which accepts only `category` / `name` and raises
`AttributeError` for anything else. -/
def dict_to_dataclass_NowUsing (data : List (String × Val)) : Except PyErr NowUsing := do
  let (c, n, dyns) ← nowUsingCollect data Option.none Option.none []
  let nu ← NowUsing.construct (c.getD (.str "api_based")) (n.getD (.str "DeepSeek"))
  dyns.foldlM (fun acc kv => acc.setattr kv.1 kv.2) nu

/-- `DynamicDataclass.__setattr__` for a name not among the declared
fields: store the (dict-wrapped) value into the `_dynamic_fields` side
mapping. -/
def DynamicDataclass.setDynamic (dyns : List (String × Val)) (name : String) (v : Val) :
    Except PyErr (List (String × Val)) :=
  (DynamicDataclass.wrapValue v).map (setEntry dyns name)

/-- The first loop of `dict_to_dataclass(data, LLMSettings)`: `models` is a
declared field of non-dataclass type, so its init value follows the
generic field branch; an incoming `_dynamic_fields` mapping becomes the
side-mapping slot (the constructor wraps it as a `DynamicDict`); other
keys are stashed for dynamic assignment. -/
def llmCollect : List (String × Val) → Option Val → Option (List (String × Val)) →
    List (String × Val) →
    Except PyErr (Option Val × Option (List (String × Val)) × List (String × Val))
  | [], m, d, acc => .ok (m, d, acc.reverse)
  | (k, v) :: rest, m, d, acc =>
      if k = "models" then do
        let mv ← dict_to_dataclass_fieldVal v
        llmCollect rest (some mv) d acc
      else if k = "_dynamic_fields" then do
        match ← dict_to_dataclass_fieldVal v with
        | .dict es => do llmCollect rest m (some (← convertEntries es)) acc
        | _ => .error (.typeError "a non-mapping _dynamic_fields value is not modelled")
      else llmCollect rest m d ((k, v) :: acc)

/-- `dict_to_dataclass(data, LLMSettings)`. -/
def dict_to_dataclass_LLMSettings (data : List (String × Val)) :
    Except PyErr LLMSettings := do
  let (m, dslot, dyns) ← llmCollect data Option.none Option.none []
  let models ← DynamicDataclass.wrapValue (m.getD (.dict []))
  let dd ← dyns.foldlM (fun acc kv => DynamicDataclass.setDynamic acc kv.1 kv.2)
    (dslot.getD [])
  .ok ⟨models, dd⟩

/-- Init-argument accumulator for `dict_to_dataclass(data, Translator)`. -/
structure TranslatorInit : Type where
  api : Option (List (String × Val)) := Option.none
  llm : Option LLMSettings := Option.none
  nu : Option NowUsing := Option.none
  dslot : Option (List (String × Val)) := Option.none

/-- The first loop of `dict_to_dataclass(data, Translator)`: a dict value
for `api_based` reconstructs the collection through `APIBased(value)`
(declared type comparison `field_type == APIBased`), `local_llm` and
`now_using` recurse into their dataclasses, other keys are stashed.  A
tagged (`__type__`-carrying) or non-dict value for one of these slots
would make Python store a value of a foreign type in a typed slot; no
modelled document produces that, and it is reported as a type error. -/
def translatorCollect : List (String × Val) → TranslatorInit → List (String × Val) →
    Except PyErr (TranslatorInit × List (String × Val))
  | [], ini, acc => .ok (ini, acc.reverse)
  | (k, v) :: rest, ini, acc =>
      if k = "api_based" then
        match v with
        | .dict es =>
            if (lookupEntries es "__type__").isSome then
              .error (.typeError "a tagged value in the api_based slot is not modelled")
            else do
              translatorCollect rest { ini with api := some (← APIBased.construct es) } acc
        | _ => .error (.typeError "a non-mapping api_based value is not modelled")
      else if k = "local_llm" then
        match v with
        | .dict es =>
            if (lookupEntries es "__type__").isSome then
              .error (.typeError "a tagged value in the local_llm slot is not modelled")
            else do
              translatorCollect rest
                { ini with llm := some (← dict_to_dataclass_LLMSettings es) } acc
        | _ => .error (.typeError "a non-mapping local_llm value is not modelled")
      else if k = "now_using" then
        match v with
        | .dict es =>
            if (lookupEntries es "__type__").isSome then
              .error (.typeError "a tagged value in the now_using slot is not modelled")
            else do
              translatorCollect rest
                { ini with nu := some (← dict_to_dataclass_NowUsing es) } acc
        | _ => .error (.typeError "a non-mapping now_using value is not modelled")
      else if k = "_dynamic_fields" then do
        match ← dict_to_dataclass_fieldVal v with
        | .dict es => do
            translatorCollect rest { ini with dslot := some (← convertEntries es) } acc
        | _ => .error (.typeError "a non-mapping _dynamic_fields value is not modelled")
      else translatorCollect rest ini ((k, v) :: acc)

/-- `dict_to_dataclass(data, Translator)`: collect, construct with
defaults for absent fields (`__post_init__` wires the back-reference),
then assign the stashed dynamic keys. -/
def dict_to_dataclass_Translator (data : List (String × Val)) :
    Except PyErr Translator := do
  let (ini, dyns) ← translatorCollect data {} []
  let api ← match ini.api with
    | some a => pure a
    | Option.none => APIBased.construct []
  let t0 := Translator.construct api (ini.llm.getD LLMSettings.mkDefault)
    (ini.nu.getD NowUsing.mkDefault) (ini.dslot.getD [])
  let dd ← dyns.foldlM (fun acc kv => DynamicDataclass.setDynamic acc kv.1 kv.2)
    t0._dynamic_fields
  .ok { t0 with _dynamic_fields := dd }

/-- Init-argument accumulator for `dict_to_dataclass(data, Settings)`. -/
structure SettingsInit : Type where
  js_path : Option Val := Option.none
  js_scripts_path : Option Val := Option.none
  work_dir : Option Val := Option.none
  translator : Option Translator := Option.none
  dslot : Option (List (String × Val)) := Option.none

/-- The first loop of `dict_to_dataclass(data, Settings)`: the three
path-holding fields follow the generic field branch (tag decoding
included); `translator` recurses into the `Translator` dataclass; other
keys are stashed for dynamic assignment. -/
def settingsCollect : List (String × Val) → SettingsInit → List (String × Val) →
    Except PyErr (SettingsInit × List (String × Val))
  | [], ini, acc => .ok (ini, acc.reverse)
  | (k, v) :: rest, ini, acc =>
      if k = "js_path" then do
        settingsCollect rest { ini with js_path := some (← dict_to_dataclass_fieldVal v) } acc
      else if k = "js_scripts_path" then do
        settingsCollect rest
          { ini with js_scripts_path := some (← dict_to_dataclass_fieldVal v) } acc
      else if k = "work_dir" then do
        settingsCollect rest { ini with work_dir := some (← dict_to_dataclass_fieldVal v) } acc
      else if k = "translator" then
        match v with
        | .dict es =>
            if (lookupEntries es "__type__").isSome then
              .error (.typeError "a tagged value in the translator slot is not modelled")
            else do
              settingsCollect rest
                { ini with translator := some (← dict_to_dataclass_Translator es) } acc
        | _ => .error (.typeError "a non-mapping translator value is not modelled")
      else if k = "_dynamic_fields" then do
        match ← dict_to_dataclass_fieldVal v with
        | .dict es => do
            settingsCollect rest { ini with dslot := some (← convertEntries es) } acc
        | _ => .error (.typeError "a non-mapping _dynamic_fields value is not modelled")
      else settingsCollect rest ini ((k, v) :: acc)

/-- `dict_to_dataclass(data, Settings)`: the root decode.  A non-mapping
root raises when `data.items()` is taken.  The constructor wraps
dict-valued init arguments (`DynamicDataclass.__setattr__`) and defaults
the absent ones; stashed dynamic keys are then assigned in order. -/
def dict_to_dataclass_Settings (v : Val) : Except PyErr Settings :=
  match v with
  | .dict data => do
      let (ini, dyns) ← settingsCollect data {} []
      let jp ← DynamicDataclass.wrapValue (ini.js_path.getD .none)
      let jsp ← DynamicDataclass.wrapValue (ini.js_scripts_path.getD .none)
      let wd ← DynamicDataclass.wrapValue (ini.work_dir.getD .none)
      let tr ← match ini.translator with
        | some t => pure t
        | Option.none => Translator.mkDefault
      let dd ← dyns.foldlM (fun acc kv => DynamicDataclass.setDynamic acc kv.1 kv.2)
        (ini.dslot.getD [])
      .ok ⟨jp, jsp, wd, tr, dd⟩
  | _ => .error (.attributeError "object has no attribute 'items'")

/-- `YAMLConfigHandler.get_default_settings()`:
`dataclass_to_dict` of `Settings` built from all-default components
(the freshly constructed `NowUsing` already has the selector values the
source re-assigns). -/
def YAMLConfigHandler.get_default_settings : Except PyErr Val := do
  let api ← APIBased.construct []
  let translator := Translator.construct api LLMSettings.mkDefault NowUsing.mkDefault
  let settings : Settings := ⟨.none, .none, .none, translator, []⟩
  .ok (dataclass_to_dict_Settings settings)

/-- The parse outcome of the on-disk document: no file at the path, a
read/parse failure carrying the underlying exception's message, or the
value `yaml.safe_load` returned (`Val.none` for an empty document). -/
inductive Doc : Type where
  | missing
  | readError (msg : String)
  | parsed (v : Val)

/-- Python falsiness of a loaded value (for `x or {}` and
`if not settings_dict`): `None`, `False`, zero, the empty string, list and
dict are falsy; a `DynamicDict` is falsy when empty (it defines
`__len__`). -/
def Val.falsy : Val → Bool
  | .none => true
  | .bool b => !b
  | .int n => n = 0
  | .float q => q = 0
  | .str s => s = ""
  | .list xs => xs.isEmpty
  | .dict es => es.isEmpty
  | .dyn es => es.isEmpty
  | _ => false

/-- What one call of `load_settings` produces: its return value (or
raised error) and the document it persisted, when it persisted one. -/
structure LoadOutcome : Type where
  result : Except PyErr Settings
  written : Option Val

/-- The `except Exception` clause of `load_settings`: any failure inside
the `try` block is re-raised as
`ValueError(f"Error loading settings: {str(e)}")`. -/
def wrapLoadErr : Except PyErr Settings → Except PyErr Settings
  | .ok s => .ok s
  | .error e => .error (.valueError ("Error loading settings: " ++ e.str))

/-- `YAMLConfigHandler.load_settings(path, Settings)`.  File reading,
`yaml.safe_load` and `yaml.dump` belong to the out-of-scope codec; the
model takes their outcome as a `Doc` and records what the function writes
back.  When the file is missing, the defaults are synthesized, dumped, and
decoded; when the document is present but its content falsy, the defaults
are synthesized, decoded-and-re-encoded for `save_settings`, and decoded
for the return value; otherwise the parsed mapping is decoded.  Every
failure inside the `try` block funnels through `wrapLoadErr`. -/
def YAMLConfigHandler.load_settings : Doc → LoadOutcome
  | .missing =>
      match YAMLConfigHandler.get_default_settings with
      | .ok d =>
          { result := wrapLoadErr (dict_to_dataclass_Settings d), written := some d }
      | .error e => { result := wrapLoadErr (.error e), written := Option.none }
  | .readError m =>
      { result := wrapLoadErr (.error (.otherError m)), written := Option.none }
  | .parsed v =>
      if v.falsy then
        match YAMLConfigHandler.get_default_settings with
        | .ok d =>
            match dict_to_dataclass_Settings d with
            | .ok s1 =>
                { result := wrapLoadErr (dict_to_dataclass_Settings d),
                  written := some (dataclass_to_dict_Settings s1) }
            | .error e => { result := wrapLoadErr (.error e), written := Option.none }
        | .error e => { result := wrapLoadErr (.error e), written := Option.none }
      else
        { result := wrapLoadErr (dict_to_dataclass_Settings v), written := Option.none }

/-- Keys of an association list are pairwise distinct (a Python dict never
holds a key twice). -/
def keysNodupB : List (String × Val) → Bool
  | [] => true
  | (k, _) :: es => !hasKey es k && keysNodupB es

/-- A service round-trips through `to_dict` / `from_dict`: its extra-field
keys are distinct and disjoint from the required names (as `from_dict`
itself guarantees), and the `openai` kind rule holds so re-validation
passes. -/
def svcRT (s : TranslatorService) : Bool :=
  keysNodupB s.extra_fields &&
  s.extra_fields.all (fun kv => kv.1 ∉ TranslatorService.REQUIRED_FIELDS) &&
  (!(s.client_type.eqStr "openai") || hasKey s.extra_fields "model")

mutual
/-- `_convert_value` leaves the value unchanged: everything but a plain
dict (which would become a `DynamicDict` or decode as a marker), with list
elements checked recursively. -/
def convStable : Val → Bool
  | .dict _ => false
  | .list xs => convStableList xs
  | _ => true

def convStableList : List Val → Bool
  | [] => true
  | x :: xs => convStable x && convStableList xs
end

mutual
/-- A value stored in a `DynamicDict` survives `to_dict` followed by
`_convert_value`: plain dicts don't (they come back wrapped); list
elements must be `_convert_value`-stable; a nested `DynamicDict` must not
itself spell a `TranslatorService` marker and its values recurse; a
service must satisfy `svcRT`. -/
def rtOKDyn : Val → Bool
  | .dict _ => false
  | .list xs => convStableList xs
  | .dyn es => !isTSMarker es && rtEntries es
  | .service s => svcRT s
  | _ => true

def rtEntries : List (String × Val) → Bool
  | [] => true
  | (_, v) :: es => rtOKDyn v && rtEntries es
end

/-- A declared-field value survives the serializer's field branch and the
constructor's dict-wrapping on decode: a `DynamicDict` additionally must
not carry a top-level `__type__` key (the decoder's tag check would
divert it); a plain dict comes back wrapped, so it does not survive. -/
def rtField : Val → Bool
  | .dict _ => false
  | .dyn es => !hasKey es "__type__" && rtEntries es
  | .service s => svcRT s
  | _ => true

/-- A dynamic-field value survives the serializer's dynamic merge and the
post-construction `setattr` on decode: a plain dict comes back wrapped and
a service comes back as a wrapped marker dict (the `setattr` path never
decodes markers), so neither survives. -/
def rtDynField : Val → Bool
  | .dict _ => false
  | .service _ => false
  | .dyn es => rtEntries es
  | _ => true

/-- The side mapping of an extensible record survives the round trip: keys
distinct, disjoint from the record's declared fields, from the skipped
`_parent_translator` name and from the tag key `__type__`, values
`rtDynField`. -/
def dynFieldsOK (declared : List String) (dyns : List (String × Val)) : Bool :=
  keysNodupB dyns && dyns.all (fun kv =>
    kv.1 ∉ declared && kv.1 ≠ "_parent_translator" && kv.1 ≠ "__type__" &&
      rtDynField kv.2)

def Val.isDict : Val → Bool
  | .dict _ => true
  | _ => false

/-- The selector state a serialized `NowUsing` reproduces: selectors that
are not plain dicts (the decode path would wrap those) and no dynamic
fields (`to_dict` drops them, and the decoder's `setattr` would reject
them). -/
def NowUsing.rtValid (nu : NowUsing) : Bool :=
  !nu._service_category.isDict && !nu._service_name.isDict &&
    nu._dynamic_fields.isEmpty

def LLMSettings.rtValid (l : LLMSettings) : Bool :=
  rtField l.models && dynFieldsOK ["_dynamic_fields", "models"] l._dynamic_fields

def Translator.rtValid (t : Translator) : Bool :=
  !hasKey t.api_based "__type__" && t.local_llm.rtValid && t.now_using.rtValid &&
    dynFieldsOK ["_dynamic_fields", "api_based", "local_llm", "now_using"]
      t._dynamic_fields

def Settings.rtValid (s : Settings) : Bool :=
  rtField s.js_path && rtField s.js_scripts_path && rtField s.work_dir &&
    s.translator.rtValid &&
    dynFieldsOK ["_dynamic_fields", "js_path", "js_scripts_path", "work_dir", "translator"]
      s._dynamic_fields

/-- The service names of a decoded tree's `api_based` collection, when the
decode succeeded. -/
def apiNamesOf (r : Except PyErr Settings) : Option (List String) :=
  match r with
  | .ok s => some (s.translator.api_based.map Prod.fst)
  | .error _ => Option.none

/-- Every `api_based` entry of a decoded tree is a service whose `key`
field is `None`. -/
def apiKeysAllNone (r : Except PyErr Settings) : Bool :=
  match r with
  | .ok s => s.translator.api_based.all (fun p =>
      match p.2 with
      | .service sv => match sv.key with | .none => true | _ => false
      | _ => false)
  | .error _ => false

def Val.isList : Val → Bool
  | .list _ => true
  | _ => false

/-- A dict value whose top level spells the `TranslatorService` marker. -/
def Val.isTSMarkerDict : Val → Bool
  | .dict es => isTSMarker es
  | _ => false

/-- A service whose `_extra_fields` shadows the required `base_url` name
(constructible directly, since `_extra_fields` is an ordinary dataclass
argument). -/
def c5svc : TranslatorService :=
  TranslatorService.mk (.str "S") Val.none Val.none (.str "rest") (.str "X")
    [("base_url", .str "evil")]

/-- The default settings tree (what `get_default_settings` serializes),
used as a concrete witness; the fallback branch is unreachable. -/
def defaultTree : Settings :=
  match Translator.mkDefault with
  | .ok t => ⟨.none, .none, .none, t, []⟩
  | .error _ =>
      ⟨.none, .none, .none, Translator.construct [] LLMSettings.mkDefault NowUsing.mkDefault, []⟩

/-- The default tree with the built-in `DeepL` service removed through
`remove_service` and a path field set: a legitimately reachable tree. -/
def treeWithoutDeepL : Settings :=
  match APIBased.remove_service defaultTree.translator.api_based "DeepL" with
  | .ok api2 =>
      { defaultTree with
        js_path := .path "/opt/shira/js",
        translator := Translator.construct api2 defaultTree.translator.local_llm
          { defaultTree.translator.now_using with _parent_translator := Option.none } }
  | .error _ => defaultTree

/-- A witness tree for the amended round-trip claim: the default tree with
a path field set, a custom service added and a dynamic field. -/
def c1WitnessTree : Settings :=
  match APIBased.add_service defaultTree.translator.api_based
      [("service_name", .str "Foo"), ("key", .str "sk"), ("request_form", Val.none),
       ("client_type", .str "rest"), ("base_url", .str "https://foo.example"),
       ("nickname", .str "foo")] with
  | .ok api2 =>
      { defaultTree with
        js_path := .path "/opt/shira/js",
        work_dir := .dyn [("cache", .str "/tmp/c")],
        translator := Translator.construct api2 defaultTree.translator.local_llm
          { defaultTree.translator.now_using with _parent_translator := Option.none },
        _dynamic_fields := [("last_opened", .datetime "2024-01-01T00:00:00")] }
  | .error _ => defaultTree

/-- Whether a decode result is a tree whose `api_based` has a `DeepL`
entry (used to separate a decoded tree from the tree it came from). -/
def decodedHasDeepL (r : Except PyErr Settings) : Bool :=
  match r with
  | .ok s => hasKey s.translator.api_based "DeepL"
  | .error _ => false

/-- `hasKey "DeepL"` of the collection obtained by serializing the default
collection minus `DeepL` and reconstructing it with `APIBased(data)`. -/
def deepLReappears : Bool :=
  match APIBased.remove_service defaultTree.translator.api_based "DeepL" with
  | .ok api2 =>
      match APIBased.construct (toDictEntries api2) with
      | .ok rebuilt => hasKey rebuilt "DeepL"
      | .error _ => false
  | .error _ => false

/-! ### Basic association-list lemmas -/

theorem lookup_setEntry_self (d : List (String × Val)) (k : String) (v : Val) :
    lookupEntries (setEntry d k v) k = some v := by
  induction d with
  | nil => simp [setEntry, lookupEntries]
  | cons kv rest ih =>
      obtain ⟨k', v'⟩ := kv
      by_cases h : k' = k
      · simp [setEntry, h, lookupEntries]
      · simp [setEntry, h, lookupEntries, ih]

theorem lookup_setEntry_ne (d : List (String × Val)) (k' k : String) (v : Val)
    (h : k' ≠ k) : lookupEntries (setEntry d k' v) k = lookupEntries d k := by
  induction d with
  | nil => simp [setEntry, lookupEntries, h]
  | cons kv rest ih =>
      obtain ⟨k0, v0⟩ := kv
      by_cases h0 : k0 = k'
      · simp [setEntry, h0, lookupEntries, h]
      · simp [setEntry, h0, lookupEntries, ih]

theorem hasKey_setEntry (d : List (String × Val)) (k' k : String) (v : Val) :
    hasKey (setEntry d k' v) k = ((k' == k) || hasKey d k) := by
  by_cases h : k' = k
  · subst h; simp [hasKey, lookup_setEntry_self]
  · simp [hasKey, lookup_setEntry_ne d k' k v h, h]

theorem lookup_pyUpdate_notin (e d : List (String × Val)) (k : String)
    (h : hasKey e k = false) :
    lookupEntries (pyUpdate d e) k = lookupEntries d k := by
  induction e generalizing d with
  | nil => simp [pyUpdate]
  | cons kv rest ih =>
      obtain ⟨k1, v1⟩ := kv
      simp only [hasKey, lookupEntries] at h
      by_cases h1 : k1 = k
      · simp [h1] at h
      · simp only [h1, if_false] at h
        simpa [pyUpdate, lookup_setEntry_ne d k1 k v1 h1] using ih (setEntry d k1 v1) h

theorem hasKey_pyUpdate (e d : List (String × Val)) (k : String) :
    hasKey (pyUpdate d e) k = (hasKey d k || hasKey e k) := by
  induction e generalizing d with
  | nil => simp [pyUpdate, hasKey, lookupEntries]
  | cons kv rest ih =>
      obtain ⟨k1, v1⟩ := kv
      simp only [pyUpdate, ih, hasKey_setEntry]
      simp only [hasKey, lookupEntries]
      by_cases h1 : k1 = k <;> simp [h1, Bool.or_comm, Bool.or_left_comm]

theorem setEntry_append (d : List (String × Val)) (k : String) (v : Val)
    (h : hasKey d k = false) : setEntry d k v = d ++ [(k, v)] := by
  induction d with
  | nil => simp [setEntry]
  | cons kv rest ih =>
      obtain ⟨k0, v0⟩ := kv
      simp only [hasKey, lookupEntries] at h
      by_cases h0 : k0 = k
      · simp [h0] at h
      · simp only [h0, if_false] at h
        simp [setEntry, h0, ih h]

theorem lookup_append (d e : List (String × Val)) (k : String) :
    lookupEntries (d ++ e) k = (lookupEntries d k).or (lookupEntries e k) := by
  induction d with
  | nil => simp [lookupEntries]
  | cons kv rest ih =>
      obtain ⟨k0, v0⟩ := kv
      by_cases h0 : k0 = k <;> simp [lookupEntries, h0, ih]

theorem hasKey_append (d e : List (String × Val)) (k : String) :
    hasKey (d ++ e) k = (hasKey d k || hasKey e k) := by
  rw [hasKey, lookup_append]
  cases h : lookupEntries d k <;> simp [hasKey, h]

theorem hasKey_of_mem (e : List (String × Val)) (kv : String × Val) (h : kv ∈ e) :
    hasKey e kv.1 = true := by
  induction e with
  | nil => cases h
  | cons kv0 rest ih =>
      obtain ⟨a, b⟩ := kv0
      by_cases ha : a = kv.1
      · simp [hasKey, lookupEntries, ha]
      · rcases List.mem_cons.mp h with h0 | h0
        · exact absurd (congrArg Prod.fst h0).symm ha
        · simp only [hasKey, lookupEntries, ha, if_false]
          exact ih h0

theorem pyUpdate_append (e d : List (String × Val))
    (hnd : keysNodupB e = true)
    (hdisj : ∀ kv ∈ e, hasKey d kv.1 = false) :
    pyUpdate d e = d ++ e := by
  induction e generalizing d with
  | nil => simp [pyUpdate]
  | cons kv rest ih =>
      obtain ⟨k1, v1⟩ := kv
      simp only [keysNodupB, Bool.and_eq_true, Bool.not_eq_true'] at hnd
      have hd1 : hasKey d k1 = false := hdisj (k1, v1) (List.mem_cons_self _ _)
      have hrest : ∀ kv ∈ rest, hasKey (d ++ [(k1, v1)]) kv.1 = false := by
        intro kv hkv
        have hne : (k1 == kv.1) = false := by
          rw [beq_eq_false_iff_ne]
          intro hEq
          have hmem := hasKey_of_mem rest kv hkv
          rw [← hEq] at hmem
          rw [hnd.1] at hmem
          cases hmem
        have hd : hasKey d kv.1 = false := hdisj kv (List.mem_cons_of_mem _ hkv)
        rw [hasKey_append, hd]
        have hne' : ¬(k1 = kv.1) := by simpa using hne
        simp [Bool.false_or, hasKey, lookupEntries, hne']
      have := ih (d ++ [(k1, v1)]) hnd.2 hrest
      rw [pyUpdate, setEntry_append d k1 v1 hd1, this, List.append_assoc]
      rfl

theorem lookup_pyUpdate_mem (e d : List (String × Val)) (k : String)
    (hnd : keysNodupB e = true) (h : hasKey e k = true) :
    lookupEntries (pyUpdate d e) k = lookupEntries e k := by
  induction e generalizing d with
  | nil => simp [hasKey, lookupEntries] at h
  | cons kv rest ih =>
      obtain ⟨k1, v1⟩ := kv
      simp only [keysNodupB, Bool.and_eq_true, Bool.not_eq_true'] at hnd
      by_cases h1 : k1 = k
      · subst h1
        rw [pyUpdate, lookup_pyUpdate_notin rest _ _ hnd.1, lookup_setEntry_self]
        simp [lookupEntries]
      · have h' : hasKey rest k = true := by
          simp only [hasKey, lookupEntries, h1, if_false] at h ⊢
          exact h
        rw [pyUpdate, ih _ hnd.2 h']
        simp [lookupEntries, h1]

/-! ### `TranslatorService` validation -/

/-- `__post_init__` succeeds whenever the kind-specific rule holds: the
required-field loop can never fire, because every required name is a
dataclass field and `hasattr` is therefore always true. -/
theorem post_init_of_rule (s : TranslatorService)
    (h : (s.client_type.eqStr "openai" && ! hasKey s.extra_fields "model") = false) :
    s.post_init = .ok s := by
  have hall : ∀ f ∈ TranslatorService.REQUIRED_FIELDS, s.hasattrB f = true := by
    intro f hf
    have hd : decide (f ∈ TranslatorService.REQUIRED_FIELDS) = true := decide_eq_true hf
    simp [TranslatorService.hasattrB, hd]
  have hfind : TranslatorService.REQUIRED_FIELDS.find? (fun f => ! s.hasattrB f) =
      Option.none := by
    rw [List.find?_eq_none]
    intro x hx
    simp [hall x hx]
  simp [TranslatorService.post_init, hfind, h]

/-- Claim C2 (code_bug): constructing a `TranslatorService` that omits
`base_url` (which therefore defaults to `None`) does NOT raise — the
required-field loop tests `hasattr`, which is always true for a dataclass
field — while the `openai`-kind rule does raise as documented.  The claim
says an omitted required field fails with a Validation error naming the
field; the code accepts it. -/
theorem c2_omitting_base_url_constructs :
    TranslatorService.construct (.str "svc") (.str "k") (.str "form") (.str "rest")
        Val.none [] =
      .ok (TranslatorService.mk (.str "svc") (.str "k") (.str "form") (.str "rest")
        Val.none []) ∧
    TranslatorService.construct (.str "svc") (.str "k") (.str "form") (.str "openai")
        (.str "https://api.example") [] =
      .error (.valueError "OpenAI client requires 'model' field") ∧
    TranslatorService.construct (.str "svc") (.str "k") (.str "form") (.str "rest")
        (.str "https://api.example") [] =
      .ok (TranslatorService.mk (.str "svc") (.str "k") (.str "form") (.str "rest")
        (.str "https://api.example") []) :=
  ⟨rfl, rfl, rfl⟩

/-- Claim C9: `from_dict` splits the mapping into required fields (absent
keys defaulting to `None`, never failing at the decode layer) and extra
fields (everything not named as required), and construction succeeds
whenever the `openai`-kind rule is satisfied. -/
theorem c9_from_dict_missing_required (data : List (String × Val))
    (hrule : ((TranslatorService.from_dict_raw data).client_type.eqStr "openai" &&
        ! hasKey (TranslatorService.from_dict_raw data).extra_fields "model") = false) :
    TranslatorService.from_dict data = .ok (TranslatorService.from_dict_raw data) ∧
    (hasKey data "base_url" = false →
      (TranslatorService.from_dict_raw data).base_url = Val.none) ∧
    (TranslatorService.from_dict_raw data).extra_fields =
      data.filter (fun kv => kv.1 ∉ TranslatorService.REQUIRED_FIELDS) := by
  refine ⟨post_init_of_rule _ hrule, ?_, rfl⟩
  intro h
  simp only [TranslatorService.from_dict_raw, TranslatorService.base_url, pyGet]
  cases hl : lookupEntries data "base_url" with
  | none => simp
  | some w => rw [hasKey, hl] at h; simp at h

theorem c9_witness :
    TranslatorService.from_dict [("client_type", Val.str "rest"), ("note", Val.int 1)] =
      .ok (TranslatorService.from_dict_raw
        [("client_type", Val.str "rest"), ("note", Val.int 1)]) ∧
    (TranslatorService.from_dict_raw
        [("client_type", Val.str "rest"), ("note", Val.int 1)]).base_url = Val.none := by
  have h := c9_from_dict_missing_required
    [("client_type", Val.str "rest"), ("note", Val.int 1)] (by rfl)
  exact ⟨h.1, h.2.1 (by rfl)⟩

/-- Claim C5, counterexample: `to_dict` merges with
`result.update(self._extra_fields)`, so on a key collision the EXTRA
field's value wins, not the required field's (`base_url` here is `"X"` as
a required field and `"evil"` as an extra). -/
theorem c5_counterexample :
    lookupEntries (TranslatorService.to_dict c5svc) "base_url" = some (.str "evil") ∧
    lookupEntries (TranslatorService.to_dict c5svc) "base_url" ≠ some (.str "X") := by
  refine ⟨rfl, ?_⟩
  intro h
  rw [show lookupEntries (TranslatorService.to_dict c5svc) "base_url" =
      some (Val.str "evil") from rfl] at h
  simp at h

/-- Claim C5 as amended: `to_dict` returns the required fields merged with
the extra fields, the EXTRA fields taking precedence on key collision (for
a key not among the extras, the required-field entries answer). -/
theorem c5_amended (s : TranslatorService) (k : String)
    (hnd : keysNodupB s.extra_fields = true) :
    (hasKey s.extra_fields k = true →
      lookupEntries (TranslatorService.to_dict s) k = lookupEntries s.extra_fields k) ∧
    (hasKey s.extra_fields k = false →
      lookupEntries (TranslatorService.to_dict s) k =
        lookupEntries
          [("service_name", s.service_name), ("key", s.key),
           ("request_form", s.request_form), ("client_type", s.client_type),
           ("base_url", s.base_url)] k) := by
  constructor
  · intro h
    exact lookup_pyUpdate_mem s.extra_fields _ k hnd h
  · intro h
    exact lookup_pyUpdate_notin s.extra_fields _ k h

theorem c5_amended_witness :
    lookupEntries (TranslatorService.to_dict c5svc) "base_url" =
      lookupEntries c5svc.extra_fields "base_url" ∧
    lookupEntries (TranslatorService.to_dict c5svc) "key" = some Val.none :=
  ⟨(c5_amended c5svc "base_url" (by rfl)).1 (by rfl),
   (c5_amended c5svc "key" (by rfl)).2 (by rfl)⟩

/-- Claim C8: on a `NowUsing`, only `category` and `name` (and the
internal slots) may be assigned; every other name fails with
`AttributeError`, and a successful selector assignment changes nothing but
that selector slot — no resolved descriptor is ever stored (the state
consists of the two selectors, the back-reference and the side
mapping). -/
theorem c8_nowusing_setattr (nu : NowUsing) (name : String) (v : Val)
    (h : name ∉ ["category", "name", "_service_category", "_service_name",
        "_parent_translator", "_dynamic_fields"]) :
    nu.setattr name v =
      .error (.attributeError "Cannot set attributes directly on NowUsing instance") ∧
    (∀ w, DynamicDataclass.wrapValue v = .ok w →
      nu.setattr "category" v = .ok { nu with _service_category := w } ∧
      nu.setattr "name" v = .ok { nu with _service_name := w }) := by
  simp only [List.mem_cons, List.not_mem_nil, or_false, not_or] at h
  obtain ⟨h1, h2, h3, h4, h5, h6⟩ := h
  refine ⟨?_, ?_⟩
  · simp [NowUsing.setattr, h1, h2, h3, h4, h5, h6]
  · intro w hw
    constructor <;> simp [NowUsing.setattr, hw, Except.map]

theorem c8_witness :
    NowUsing.mkDefault.setattr "base_url" (.str "u") =
      .error (.attributeError "Cannot set attributes directly on NowUsing instance") ∧
    NowUsing.mkDefault.setattr "category" (.str "local_llm") =
      .ok { NowUsing.mkDefault with _service_category := .str "local_llm" } := by
  have ha := c8_nowusing_setattr NowUsing.mkDefault "base_url" (.str "u") (by decide)
  have hb := c8_nowusing_setattr NowUsing.mkDefault "base_url" (.str "local_llm") (by decide)
  exact ⟨ha.1, (hb.2 _ rfl).1⟩

/-- Claim C3, counterexample: `__setitem__` stores a list verbatim (no
elementwise conversion), so a plain dict nested in a list stays a plain
dict, unlike the `_convert_value` rule the claim asserts all mutators
apply. -/
theorem c3_counterexample :
    DynamicDict.setitem [] "k" (.list [.dict [("a", Val.int 1)]]) =
      .ok [("k", .list [.dict [("a", Val.int 1)]])] ∧
    convertValue (.list [.dict [("a", Val.int 1)]]) =
      .ok (.list [.dyn [("a", Val.int 1)]]) ∧
    DynamicDict.setitem [] "k" (.list [.dict [("a", Val.int 1)]]) ≠
      (convertValue (.list [.dict [("a", Val.int 1)]])).map (setEntry [] "k") := by
  refine ⟨rfl, rfl, ?_⟩
  intro h
  rw [show DynamicDict.setitem [] "k" (.list [.dict [("a", Val.int 1)]]) =
      .ok [("k", Val.list [Val.dict [("a", Val.int 1)]])] from rfl,
    show (convertValue (.list [.dict [("a", Val.int 1)]])).map (setEntry [] "k") =
      .ok [("k", Val.list [Val.dyn [("a", Val.int 1)]])] from rfl] at h
  simp at h

/-- Claim C3 as amended: for every assigned value that is neither a
top-level list nor a top-level marker dict, attribute-style set, key-style
set and bulk update store exactly the `_convert_value` result (nested
dicts wrapped recursively, nested markers decoded), and `setdefault` does
so for an absent key. -/
theorem c3_amended (d : List (String × Val)) (k name : String) (v : Val)
    (hl : v.isList = false) (hm : v.isTSMarkerDict = false) :
    DynamicDict.setitem d k v = (convertValue v).map (setEntry d k) ∧
    DynamicDict.setattr d name v = (convertValue v).map (setEntry d name) ∧
    DynamicDict.update d [(k, v)] = (convertValue v).map (setEntry d k) ∧
    (hasKey d k = false →
      DynamicDict.setdefault d k v = (convertValue v).map (setEntry d k)) := by
  have hset : ∀ key : String,
      DynamicDict.setitem d key v = (convertValue v).map (setEntry d key) := by
    intro key
    cases v with
    | dict es =>
        simp only [Val.isTSMarkerDict] at hm
        simp only [DynamicDict.setitem, convertValue, hm, Bool.false_eq_true, if_false]
        cases convertEntries es <;> simp [Except.map]
    | list xs => simp [Val.isList] at hl
    | none => rfl
    | str s => rfl
    | int n => rfl
    | bool b => rfl
    | float q => rfl
    | dyn es => rfl
    | service s => rfl
    | path p => rfl
    | datetime s => rfl
  refine ⟨hset k, ?_, ?_, ?_⟩
  · cases v with
    | dict es =>
        simp only [Val.isTSMarkerDict] at hm
        simp only [DynamicDict.setattr, convertValue, hm, Bool.false_eq_true, if_false]
        cases convertEntries es <;> simp [Except.map]
    | list xs => simp [Val.isList] at hl
    | none => rfl
    | str s => rfl
    | int n => rfl
    | bool b => rfl
    | float q => rfl
    | dyn es => rfl
    | service s => rfl
    | path p => rfl
    | datetime s => rfl
  · rw [DynamicDict.update]
    rw [show ∀ x : Except PyErr (List (String × Val)),
      (do DynamicDict.update (← x) []) = x from ?_]
    · exact hset k
    · intro x
      cases x <;> rfl
  · intro habs
    rw [DynamicDict.setdefault, habs]
    simp only [Bool.false_eq_true, if_false]

theorem c3_witness :
    DynamicDict.setitem [] "k" (.dict [("x", Val.int 2)]) =
      (convertValue (.dict [("x", Val.int 2)])).map (setEntry [] "k") ∧
    DynamicDict.setdefault [] "k" (.dict [("x", Val.int 2)]) =
      (convertValue (.dict [("x", Val.int 2)])).map (setEntry [] "k") := by
  have h := c3_amended [] "k" "n" (.dict [("x", Val.int 2)]) rfl rfl
  exact ⟨h.1, h.2.2.2 rfl⟩

/-- Claim C4: with the back-reference wired and `category = 'api_based'`,
`name = N` naming a descriptor `D`, any forwarded attribute read answers
with `D`'s attribute; an unset back-reference, an invalid category, or an
unmatched name each fail with `ValueError`.  (`getattrF` is the
`__getattr__` body after the internal-slot guard; the guarded names and
the `category` / `name` properties never reach it.) -/
theorem c4_nowusing_resolution (api : List (String × Val)) (models : Val)
    (N attr : String) (D : TranslatorService) (nu : NowUsing) :
    (nu._service_category = .str "api_based" → nu._service_name = .str N →
      nu._parent_translator = some ⟨api, models⟩ →
      lookupEntries api N = some (.service D) →
      nu.getattrF attr = D.getattrVal attr) ∧
    (nu._parent_translator = Option.none →
      ∃ m, nu.getattrF attr = .error (.valueError m)) ∧
    (∀ c : String, c ≠ "api_based" → c ≠ "local_llm" →
      nu._service_category = .str c → nu._service_name ≠ Val.none →
      nu.getattrF attr = .error (.valueError ("Invalid service category: " ++ c))) ∧
    (nu._service_category = .str "api_based" → nu._service_name = .str N →
      nu._parent_translator = some ⟨api, models⟩ →
      lookupEntries api N = Option.none →
      nu.getattrF attr =
        .error (.valueError ("Service '" ++ N ++ "' not found in api_based services"))) := by
  refine ⟨?_, ?_, ?_, ?_⟩
  · intro hcat hname hpar hlook
    unfold NowUsing.getattrF
    rw [hcat, hname, hpar]
    simp [Val.eqStr, lookupValKey, hlook, Val.getattrPy]
  · intro hpar
    unfold NowUsing.getattrF
    split
    · exact ⟨_, rfl⟩
    · exact ⟨_, rfl⟩
    · rw [hpar]
      by_cases hc1 : nu._service_category.eqStr "api_based" = true
      · rw [if_pos hc1]
        exact ⟨_, rfl⟩
      · rw [if_neg hc1]
        by_cases hc2 : nu._service_category.eqStr "local_llm" = true
        · rw [if_pos hc2]
          exact ⟨_, rfl⟩
        · rw [if_neg hc2]
          exact ⟨_, rfl⟩
  · intro c hc1 hc2 hcat hname
    unfold NowUsing.getattrF
    rw [hcat]
    cases hn : nu._service_name <;>
      first
        | exact absurd hn hname
        | simp [Val.eqStr, hc1, hc2, Val.pyStr]
  · intro hcat hname hpar hlook
    unfold NowUsing.getattrF
    rw [hcat, hname, hpar]
    simp [Val.eqStr, lookupValKey, hlook, Val.pyStr]

theorem c4_witness :
    (NowUsing.mk (.str "api_based") (.str "Foo")
        (some ⟨[("Foo", .service c5svc)], .dyn []⟩) []).getattrF "base_url" =
      .ok (.str "X") ∧
    (NowUsing.mk (.str "api_based") (.str "Foo") Option.none []).getattrF "base_url" =
      .error (.valueError "Parent translator reference not set") ∧
    (NowUsing.mk (.str "remote") (.str "Foo")
        (some ⟨[("Foo", .service c5svc)], .dyn []⟩) []).getattrF "base_url" =
      .error (.valueError "Invalid service category: remote") ∧
    (NowUsing.mk (.str "api_based") (.str "Bar")
        (some ⟨[("Foo", .service c5svc)], .dyn []⟩) []).getattrF "base_url" =
      .error (.valueError "Service 'Bar' not found in api_based services") := by
  have h1 := (c4_nowusing_resolution [("Foo", .service c5svc)] (.dyn []) "Foo" "base_url"
    c5svc (NowUsing.mk (.str "api_based") (.str "Foo")
      (some ⟨[("Foo", .service c5svc)], .dyn []⟩) [])).1 rfl rfl rfl rfl
  have h2 := (c4_nowusing_resolution [("Foo", .service c5svc)] (.dyn []) "Foo" "base_url"
    c5svc (NowUsing.mk (.str "api_based") (.str "Foo") Option.none [])).2.1 rfl
  have h3 := (c4_nowusing_resolution [("Foo", .service c5svc)] (.dyn []) "Foo" "base_url"
    c5svc (NowUsing.mk (.str "remote") (.str "Foo")
      (some ⟨[("Foo", .service c5svc)], .dyn []⟩) [])).2.2.1 "remote"
    (by decide) (by decide) rfl (by simp)
  have h4 := (c4_nowusing_resolution [("Foo", .service c5svc)] (.dyn []) "Bar" "base_url"
    c5svc (NowUsing.mk (.str "api_based") (.str "Bar")
      (some ⟨[("Foo", .service c5svc)], .dyn []⟩) [])).2.2.2 rfl rfl rfl rfl
  refine ⟨by rw [h1]; rfl, ?_, h3, h4⟩
  obtain ⟨m, hm⟩ := h2
  rw [show (NowUsing.mk (.str "api_based") (.str "Foo") Option.none
      []).getattrF "base_url" =
    .error (.valueError "Parent translator reference not set") from rfl]

/-- Claim C7: every failure raised while reading or parsing the on-disk
document is caught and re-raised as the single wrapped
`ValueError(f"Error loading settings: {str(e)}")` carrying the original
failure's message, and no other error type escapes `load_settings`:
(1) for every document state the result is a tree or such a wrapped
`ValueError`; (2) a read/parse failure's message is carried verbatim
inside the wrapped message; (3) the `except` clause turns any underlying
error `e` of the body into exactly the wrapped `ValueError` carrying
`str(e)`. -/
theorem c7_load_errors_wrapped :
    (∀ d : Doc,
      (∃ s, (YAMLConfigHandler.load_settings d).result = .ok s) ∨
      (∃ m, (YAMLConfigHandler.load_settings d).result =
        .error (.valueError ("Error loading settings: " ++ m)))) ∧
    (∀ msg : String,
      (YAMLConfigHandler.load_settings (.readError msg)).result =
        .error (.valueError ("Error loading settings: " ++ msg))) ∧
    (∀ e : PyErr, wrapLoadErr (.error e) =
      .error (.valueError ("Error loading settings: " ++ PyErr.str e))) := by
  refine ⟨?_, fun msg => rfl, fun e => rfl⟩
  intro d
  have hw : ∀ x : Except PyErr Settings,
      (∃ s, wrapLoadErr x = .ok s) ∨
      (∃ m, wrapLoadErr x = .error (.valueError ("Error loading settings: " ++ m))) := by
    intro x
    cases x with
    | ok s => exact Or.inl ⟨s, rfl⟩
    | error e => exact Or.inr ⟨e.str, rfl⟩
  cases d with
  | missing =>
      simp only [YAMLConfigHandler.load_settings]
      cases hg : YAMLConfigHandler.get_default_settings <;> simp only [hg] <;> exact hw _
  | readError m =>
      simp only [YAMLConfigHandler.load_settings]
      exact hw _
  | parsed v =>
      simp only [YAMLConfigHandler.load_settings]
      by_cases hf : v.falsy = true
      · rw [if_pos hf]
        cases hg : YAMLConfigHandler.get_default_settings with
        | error e =>
            simp only [hg]
            exact hw _
        | ok dd =>
            simp only [hg]
            cases hs : dict_to_dataclass_Settings dd <;> simp only [hs] <;> exact hw _
      · rw [if_neg hf]
        exact hw _

theorem hasKey_eq_keys_contains (es : List (String × Val)) (k : String) :
    hasKey es k = (es.map Prod.fst).contains k := by
  induction es with
  | nil => rfl
  | cons kv rest ih =>
      obtain ⟨a, b⟩ := kv
      by_cases ha : a = k
      · subst ha
        simp [hasKey, lookupEntries, List.contains_cons]
      · have hne : (k == a) = false := by
          rw [beq_eq_false_iff_ne]
          exact fun h => ha h.symm
        simp only [hasKey, lookupEntries, ha, if_false, List.map_cons, List.contains_cons,
          hne, Bool.false_or]
        exact ih

theorem convertEntries_keys (es l : List (String × Val))
    (h : convertEntries es = .ok l) : l.map Prod.fst = es.map Prod.fst := by
  induction es generalizing l with
  | nil =>
      simp only [convertEntries] at h
      cases h
      rfl
  | cons kv rest ih =>
      obtain ⟨k, v⟩ := kv
      simp only [convertEntries, bind, Except.bind] at h
      cases hv : convertValue v with
      | error e => rw [hv] at h; cases h
      | ok v' =>
          rw [hv] at h
          cases hr : convertEntries rest with
          | error e => rw [hr] at h; cases h
          | ok rest' =>
              rw [hr] at h
              cases h
              simp [ih rest' hr]

/-- Claim C10: `APIBased.__init__` populates the built-in defaults first
and only then overlays the given data, so every successfully constructed
collection has `DeepL` and `DeepSeek` keys; in particular the default
collection with `DeepL` removed gets it back when rebuilt from its
serialized form. -/
theorem c10_defaults_always_present (data l : List (String × Val))
    (h : APIBased.construct data = .ok l) :
    hasKey l "DeepL" = true ∧ hasKey l "DeepSeek" = true ∧ deepLReappears = true := by
  obtain ⟨dflt, hb, hkeys⟩ : ∃ dflt,
      APIBased.buildDefaults APIBased.DEFAULT_SERVICES = .ok dflt ∧
      dflt.map Prod.fst = ["DeepL", "DeepSeek"] := ⟨_, rfl, rfl⟩
  unfold APIBased.construct at h
  rw [hb] at h
  simp only [bind, Except.bind] at h
  have hk : l.map Prod.fst = (pyUpdate dflt data).map Prod.fst :=
    convertEntries_keys _ _ h
  have hkey : ∀ k : String, hasKey l k = hasKey (pyUpdate dflt data) k := by
    intro k
    rw [hasKey_eq_keys_contains, hasKey_eq_keys_contains, hk]
  have hdl : hasKey dflt "DeepL" = true := by
    rw [hasKey_eq_keys_contains, hkeys]; rfl
  have hds : hasKey dflt "DeepSeek" = true := by
    rw [hasKey_eq_keys_contains, hkeys]; rfl
  refine ⟨?_, ?_, rfl⟩
  · rw [hkey, hasKey_pyUpdate, hdl]; rfl
  · rw [hkey, hasKey_pyUpdate, hds]; rfl

theorem c10_witness :
    ∃ l, APIBased.construct [] = .ok l ∧ hasKey l "DeepL" = true ∧
      hasKey l "DeepSeek" = true := by
  have h := c10_defaults_always_present [] _ rfl
  exact ⟨_, rfl, h.1, h.2.1⟩

/-- Claim C6: loading from a missing path (or a document with empty /
falsy content) synthesizes the defaults, persists a document, and returns
a tree whose `translator.api_based` holds exactly the built-ins `DeepL`
and `DeepSeek`, each with a `None` key field. -/
theorem c6_default_bootstrap :
    apiNamesOf (YAMLConfigHandler.load_settings .missing).result =
      some ["DeepL", "DeepSeek"] ∧
    apiKeysAllNone (YAMLConfigHandler.load_settings .missing).result = true ∧
    (YAMLConfigHandler.load_settings .missing).written =
      YAMLConfigHandler.get_default_settings.toOption ∧
    apiNamesOf (YAMLConfigHandler.load_settings (.parsed Val.none)).result =
      some ["DeepL", "DeepSeek"] ∧
    apiKeysAllNone (YAMLConfigHandler.load_settings (.parsed Val.none)).result = true ∧
    (YAMLConfigHandler.load_settings (.parsed Val.none)).written.isSome = true :=
  ⟨rfl, rfl, rfl, rfl, rfl, rfl⟩

/-! ### Round-trip machinery for the serializer -/

theorem val_sizeOf_pos (v : Val) : 0 < sizeOf v := by
  cases v <;> simp_arith

theorem toDictVal_eqStr (v : Val) (lit : String) :
    (toDictVal v).eqStr lit = v.eqStr lit := by
  cases v <;> rfl

theorem lookup_toDictEntries (es : List (String × Val)) (k : String) :
    lookupEntries (toDictEntries es) k = (lookupEntries es k).map toDictVal := by
  induction es with
  | nil => rfl
  | cons kv rest ih =>
      obtain ⟨a, b⟩ := kv
      by_cases ha : a = k <;> simp [toDictEntries, lookupEntries, ha, ih]

theorem isTSMarker_toDictEntries (es : List (String × Val)) :
    isTSMarker (toDictEntries es) = isTSMarker es := by
  unfold isTSMarker
  rw [lookup_toDictEntries]
  cases lookupEntries es "__type__" with
  | none => rfl
  | some v => simp [toDictVal_eqStr]

theorem hasKey_toDictEntries (es : List (String × Val)) (k : String) :
    hasKey (toDictEntries es) k = hasKey es k := by
  rw [hasKey, hasKey, lookup_toDictEntries]
  cases lookupEntries es k <;> rfl

theorem keys_toDictEntries (es : List (String × Val)) :
    (toDictEntries es).map Prod.fst = es.map Prod.fst := by
  induction es with
  | nil => rfl
  | cons kv rest ih =>
      obtain ⟨a, b⟩ := kv
      simp [toDictEntries, ih]

/-- A service with round-trip-safe extras decodes from its own `to_dict`
back to itself. -/
theorem svc_roundtrip (s : TranslatorService) (h : svcRT s = true) :
    TranslatorService.from_dict s.to_dict = .ok s := by
  cases s with
  | mk a b c d e ex =>
      simp only [svcRT, Bool.and_eq_true, TranslatorService.extra_fields,
        TranslatorService.client_type] at h
      obtain ⟨⟨hnd, hdisj⟩, hrule⟩ := h
      have hdisj' : ∀ kv ∈ ex, kv.1 ∉ TranslatorService.REQUIRED_FIELDS := by
        intro kv hkv
        have := List.all_eq_true.mp hdisj kv hkv
        simpa using this
      have hbase : ∀ kv ∈ ex,
          hasKey [("service_name", a), ("key", b), ("request_form", c),
            ("client_type", d), ("base_url", e)] kv.1 = false := by
        intro kv hkv
        have hx := hdisj' kv hkv
        simp only [TranslatorService.REQUIRED_FIELDS, List.mem_cons, List.not_mem_nil,
          or_false, not_or] at hx
        obtain ⟨n1, n2, n3, n4, n5⟩ := hx
        simp [hasKey, lookupEntries, Ne.symm n1, Ne.symm n2, Ne.symm n3,
          Ne.symm n4, Ne.symm n5]
      have hupd : TranslatorService.to_dict (.mk a b c d e ex) =
          [("service_name", a), ("key", b), ("request_form", c),
           ("client_type", d), ("base_url", e)] ++ ex := by
        rw [TranslatorService.to_dict]
        exact pyUpdate_append ex _ hnd hbase
      have h1 : pyGet ([("service_name", a), ("key", b), ("request_form", c),
          ("client_type", d), ("base_url", e)] ++ ex) "service_name" = a := by
        rw [pyGet, lookup_append]; rfl
      have h2 : pyGet ([("service_name", a), ("key", b), ("request_form", c),
          ("client_type", d), ("base_url", e)] ++ ex) "key" = b := by
        rw [pyGet, lookup_append]; rfl
      have h3 : pyGet ([("service_name", a), ("key", b), ("request_form", c),
          ("client_type", d), ("base_url", e)] ++ ex) "request_form" = c := by
        rw [pyGet, lookup_append]; rfl
      have h4 : pyGet ([("service_name", a), ("key", b), ("request_form", c),
          ("client_type", d), ("base_url", e)] ++ ex) "client_type" = d := by
        rw [pyGet, lookup_append]; rfl
      have h5 : pyGet ([("service_name", a), ("key", b), ("request_form", c),
          ("client_type", d), ("base_url", e)] ++ ex) "base_url" = e := by
        rw [pyGet, lookup_append]; rfl
      have hf : ([("service_name", a), ("key", b), ("request_form", c),
          ("client_type", d), ("base_url", e)] ++ ex).filter
            (fun kv => decide (kv.1 ∉ TranslatorService.REQUIRED_FIELDS)) = ex := by
        rw [List.filter_append]
        rw [show ([("service_name", a), ("key", b), ("request_form", c),
          ("client_type", d), ("base_url", e)] : List (String × Val)).filter
            (fun kv => decide (kv.1 ∉ TranslatorService.REQUIRED_FIELDS)) = [] from rfl]
        rw [List.nil_append]
        exact List.filter_eq_self.mpr (fun kv hkv => by simpa using hdisj' kv hkv)
      have hraw : TranslatorService.from_dict_raw
            ((TranslatorService.mk a b c d e ex).to_dict) = .mk a b c d e ex := by
        rw [hupd, TranslatorService.from_dict_raw, h1, h2, h3, h4, h5, hf]
      rw [TranslatorService.from_dict, hraw]
      apply post_init_of_rule
      simp only [TranslatorService.client_type, TranslatorService.extra_fields]
      cases hcl : d.eqStr "openai" with
      | false => simp [hcl]
      | true =>
          rw [hcl] at hrule
          simp only [Bool.not_true, Bool.false_or] at hrule
          simp [hrule]

/-- The four `_convert_value` round-trip statements, proved together by
strong induction on size: a `_convert_value`-stable value converts to
itself, and a `rtOKDyn` value survives `to_dict` followed by
`_convert_value`. -/
theorem convRT_main : ∀ n : Nat,
    (∀ v : Val, sizeOf v ≤ n → convStable v = true → convertValue v = .ok v) ∧
    (∀ xs : List Val, sizeOf xs ≤ n → convStableList xs = true →
      convertList xs = .ok xs) ∧
    (∀ v : Val, sizeOf v ≤ n → rtOKDyn v = true →
      convertValue (toDictVal v) = .ok v) ∧
    (∀ es : List (String × Val), sizeOf es ≤ n → rtEntries es = true →
      convertEntries (toDictEntries es) = .ok es) := by
  intro n
  induction n with
  | zero =>
      refine ⟨fun v hv _ => absurd hv ?_, fun xs hx _ => absurd hx ?_,
        fun v hv _ => absurd hv ?_, fun es he _ => absurd he ?_⟩
      · have := val_sizeOf_pos v; omega
      · cases xs <;> simp_arith
      · have := val_sizeOf_pos v; omega
      · cases es <;> simp_arith
  | succ n ih =>
      obtain ⟨ih1, ih2, ih3, ih4⟩ := ih
      have part1 : ∀ v : Val, sizeOf v ≤ n + 1 → convStable v = true →
          convertValue v = .ok v := by
        intro v hv hs
        cases v with
        | dict es => simp [convStable] at hs
        | list xs =>
            have hb : sizeOf xs ≤ n := by
              have : sizeOf (Val.list xs) = 1 + sizeOf xs := by simp
              omega
            simp only [convStable] at hs
            simp only [convertValue, ih2 xs hb hs]
            rfl
        | none => rfl
        | str s => rfl
        | int m => rfl
        | bool b => rfl
        | float q => rfl
        | dyn es => rfl
        | service s => rfl
        | path p => rfl
        | datetime s => rfl
      have part2 : ∀ xs : List Val, sizeOf xs ≤ n + 1 → convStableList xs = true →
          convertList xs = .ok xs := by
        intro xs hx hs
        cases xs with
        | nil => rfl
        | cons x tl =>
            have hsz : sizeOf (x :: tl) = 1 + sizeOf x + sizeOf tl := by simp
            have hx1 : sizeOf x ≤ n := by
              have := val_sizeOf_pos x
              have htl : 0 < sizeOf tl := by cases tl <;> simp_arith
              omega
            have ht1 : sizeOf tl ≤ n := by
              have := val_sizeOf_pos x
              omega
            simp only [convStableList, Bool.and_eq_true] at hs
            simp only [convertList, bind, Except.bind, part1 x (by omega) hs.1,
              ih2 tl ht1 hs.2]
      have part4 : ∀ es : List (String × Val), sizeOf es ≤ n + 1 → rtEntries es = true →
          convertEntries (toDictEntries es) = .ok es := by
        intro es he hs
        cases es with
        | nil => rfl
        | cons kv tl =>
            obtain ⟨k, v⟩ := kv
            have hsz : sizeOf ((k, v) :: tl) = 1 + (1 + sizeOf k + sizeOf v) + sizeOf tl := by
              simp
            have hv1 : sizeOf v ≤ n := by
              have := val_sizeOf_pos v
              have htl : 0 < sizeOf tl := by cases tl <;> simp_arith
              omega
            have ht1 : sizeOf tl ≤ n := by
              have := val_sizeOf_pos v
              omega
            simp only [rtEntries, Bool.and_eq_true] at hs
            have hhead : convertValue (toDictVal v) = .ok v := ih3 v hv1 hs.1
            simp only [toDictEntries, convertEntries, bind, Except.bind, hhead,
              ih4 tl ht1 hs.2]
      have part3 : ∀ v : Val, sizeOf v ≤ n + 1 → rtOKDyn v = true →
          convertValue (toDictVal v) = .ok v := by
        intro v hv hr
        cases v with
        | dict es => simp [rtOKDyn] at hr
        | list xs =>
            have hb : sizeOf xs ≤ n := by
              have : sizeOf (Val.list xs) = 1 + sizeOf xs := by simp
              omega
            simp only [rtOKDyn] at hr
            simp only [toDictVal, convertValue, ih2 xs hb hr]
            rfl
        | dyn es =>
            have hb : sizeOf es ≤ n := by
              have : sizeOf (Val.dyn es) = 1 + sizeOf es := by simp
              omega
            simp only [rtOKDyn, Bool.and_eq_true, Bool.not_eq_true'] at hr
            simp only [toDictVal, convertValue, isTSMarker_toDictEntries, hr.1,
              Bool.false_eq_true, if_false, ih4 es hb hr.2]
            rfl
        | service s =>
            simp only [rtOKDyn] at hr
            rw [show toDictVal (Val.service s) =
              .dict [("__type__", .str "TranslatorService"),
                     ("value", .dict s.to_dict)] from rfl]
            rw [show convertValue (Val.dict [("__type__", .str "TranslatorService"),
                  ("value", .dict s.to_dict)]) =
                (TranslatorService.from_dict s.to_dict).map Val.service from rfl]
            rw [svc_roundtrip s hr]
            rfl
        | none => rfl
        | str s => rfl
        | int m => rfl
        | bool b => rfl
        | float q => rfl
        | path p => rfl
        | datetime s => rfl
      exact ⟨part1, part2, part3, part4⟩

theorem conv_stable_ok (v : Val) (h : convStable v = true) : convertValue v = .ok v :=
  (convRT_main (sizeOf v)).1 v le_rfl h

theorem rt_entries_ok (es : List (String × Val)) (h : rtEntries es = true) :
    convertEntries (toDictEntries es) = .ok es :=
  (convRT_main (sizeOf es)).2.2.2 es le_rfl h

theorem wrapValue_of_not_dict (v : Val) (h : v.isDict = false) :
    DynamicDataclass.wrapValue v = .ok v := by
  cases v <;> first | rfl | simp [Val.isDict] at h

/-- A declared-field value with `rtField` survives encoding, the decode
tag branch, and the constructor's dict wrapping. -/
theorem field_roundtrip (v : Val) (h : rtField v = true) :
    ∃ mid, dict_to_dataclass_fieldVal (dataclass_to_dict_field v) = .ok mid ∧
      DynamicDataclass.wrapValue mid = .ok v := by
  cases v with
  | dict es => simp [rtField] at h
  | dyn es =>
      simp only [rtField, Bool.and_eq_true, Bool.not_eq_true'] at h
      refine ⟨.dict (toDictEntries es), ?_, ?_⟩
      · simp only [dataclass_to_dict_field, dict_to_dataclass_fieldVal]
        rw [lookup_toDictEntries]
        have hnone : lookupEntries es "__type__" = Option.none := by
          have := h.1
          rw [hasKey] at this
          cases hl : lookupEntries es "__type__" with
          | none => rfl
          | some w => rw [hl] at this; cases this
        rw [hnone]
        rfl
      · simp only [DynamicDataclass.wrapValue]
        rw [rt_entries_ok es h.2]
        rfl
  | service s =>
      simp only [rtField] at h
      refine ⟨.service s, ?_, rfl⟩
      rw [show dict_to_dataclass_fieldVal (dataclass_to_dict_field (Val.service s)) =
        (TranslatorService.from_dict s.to_dict).map Val.service from rfl]
      rw [svc_roundtrip s h]
      rfl
  | path p => exact ⟨.path p, rfl, rfl⟩
  | list xs => exact ⟨.list xs, rfl, rfl⟩
  | none => exact ⟨.none, rfl, rfl⟩
  | str s => exact ⟨.str s, rfl, rfl⟩
  | int m => exact ⟨.int m, rfl, rfl⟩
  | bool b => exact ⟨.bool b, rfl, rfl⟩
  | float q => exact ⟨.float q, rfl, rfl⟩
  | datetime s => exact ⟨.datetime s, rfl, rfl⟩

/-- A dynamic-field value with `rtDynField` survives the dynamic-merge
encoding followed by the decode `setattr` wrapping. -/
theorem dynfield_roundtrip (v : Val) (h : rtDynField v = true) :
    DynamicDataclass.wrapValue (dataclass_to_dict_value v) = .ok v := by
  cases v with
  | dict es => simp [rtDynField] at h
  | service s => simp [rtDynField] at h
  | dyn es =>
      simp only [rtDynField] at h
      rw [show dataclass_to_dict_value (Val.dyn es) = .dict (toDictEntries es) from rfl]
      simp only [DynamicDataclass.wrapValue]
      rw [rt_entries_ok es h]
      rfl
  | list xs => rfl
  | none => rfl
  | str s => rfl
  | int m => rfl
  | bool b => rfl
  | float q => rfl
  | path p => rfl
  | datetime s => rfl

theorem encodeDynamics_eq_map (dyns : List (String × Val))
    (h : ∀ kv ∈ dyns, kv.1 ≠ "_parent_translator") :
    encodeDynamics dyns = dyns.map (fun kv => (kv.1, dataclass_to_dict_value kv.2)) := by
  unfold encodeDynamics
  rw [List.filter_eq_self.mpr (fun kv hkv => by simpa using h kv hkv)]

theorem keys_encodeDynamics (dyns : List (String × Val))
    (h : ∀ kv ∈ dyns, kv.1 ≠ "_parent_translator") :
    (encodeDynamics dyns).map Prod.fst = dyns.map Prod.fst := by
  rw [encodeDynamics_eq_map dyns h, List.map_map]
  rfl

/-- The bundle `dynFieldsOK` unpacked to its useful pieces. -/
theorem dynFieldsOK_props (declared : List String) (dyns : List (String × Val))
    (h : dynFieldsOK declared dyns = true) :
    keysNodupB dyns = true ∧
    ∀ kv ∈ dyns, kv.1 ∉ declared ∧ kv.1 ≠ "_parent_translator" ∧
      kv.1 ≠ "__type__" ∧ rtDynField kv.2 = true := by
  simp only [dynFieldsOK, Bool.and_eq_true] at h
  refine ⟨h.1, fun kv hkv => ?_⟩
  have := List.all_eq_true.mp h.2 kv hkv
  simp only [Bool.and_eq_true, decide_eq_true_eq] at this
  exact ⟨this.1.1.1, this.1.1.2, this.1.2, this.2⟩

/-- Decoding the encoded dynamic fields through successive
`DynamicDataclass.__setattr__` assignments appends them, in order, to the
accumulated side mapping. -/
theorem dynamics_roundtrip (declared : List String) (dyns : List (String × Val))
    (h : dynFieldsOK declared dyns = true) :
    ∀ acc : List (String × Val), (∀ kv ∈ dyns, hasKey acc kv.1 = false) →
      List.foldlM (fun a (kv : String × Val) => DynamicDataclass.setDynamic a kv.1 kv.2)
        acc (encodeDynamics dyns) = .ok (acc ++ dyns) := by
  induction dyns with
  | nil =>
      intro acc _
      simp only [encodeDynamics, List.filter_nil, List.map_nil, List.foldlM_nil,
        List.append_nil]
      rfl
  | cons kv rest ih =>
      obtain ⟨k, v⟩ := kv
      intro acc hacc
      obtain ⟨hnd, hprops⟩ := dynFieldsOK_props declared ((k, v) :: rest) h
      simp only [keysNodupB, Bool.and_eq_true, Bool.not_eq_true'] at hnd
      have hkp : k ≠ "_parent_translator" :=
        (hprops (k, v) (List.mem_cons_self _ _)).2.1
      have hrt : rtDynField v = true :=
        (hprops (k, v) (List.mem_cons_self _ _)).2.2.2
      have henc : encodeDynamics ((k, v) :: rest) =
          (k, dataclass_to_dict_value v) :: encodeDynamics rest := by
        unfold encodeDynamics
        simp [List.filter_cons, hkp]
      rw [henc, List.foldlM_cons]
      have hset : DynamicDataclass.setDynamic acc k (dataclass_to_dict_value v) =
          .ok (acc ++ [(k, v)]) := by
        rw [DynamicDataclass.setDynamic, dynfield_roundtrip v hrt]
        rw [show Except.map (setEntry acc k) (Except.ok v) = .ok (setEntry acc k v)
          from rfl]
        rw [setEntry_append acc k v (hacc (k, v) (List.mem_cons_self _ _))]
      rw [hset]
      have hrestOK : dynFieldsOK declared rest = true := by
        simp only [dynFieldsOK, Bool.and_eq_true] at h ⊢
        obtain ⟨hn, ha⟩ := h
        simp only [keysNodupB, Bool.and_eq_true] at hn
        simp only [List.all_cons, Bool.and_eq_true] at ha
        exact ⟨hn.2, ha.2⟩
      have hacc' : ∀ kv ∈ rest, hasKey (acc ++ [(k, v)]) kv.1 = false := by
        intro kv hkv
        rw [hasKey_append, hacc kv (List.mem_cons_of_mem _ hkv)]
        have hne : ¬(k = kv.1) := by
          intro hEq
          have hm := hasKey_of_mem rest kv hkv
          rw [← hEq, hnd.1] at hm
          cases hm
        simp [hasKey, lookupEntries, hne]
      have := ih hrestOK (acc ++ [(k, v)]) hacc'
      rw [show (Except.ok (acc ++ [(k, v)]) : Except PyErr (List (String × Val))) >>=
          (fun a => List.foldlM (fun a (kv : String × Val) =>
            DynamicDataclass.setDynamic a kv.1 kv.2) a (encodeDynamics rest)) =
          List.foldlM (fun a (kv : String × Val) => DynamicDataclass.setDynamic a kv.1 kv.2)
            (acc ++ [(k, v)]) (encodeDynamics rest) from rfl]
      rw [this, List.append_assoc]
      rfl

theorem keysNodupB_eq_of_keys_eq (es : List (String × Val)) :
    ∀ es' : List (String × Val), es.map Prod.fst = es'.map Prod.fst →
      keysNodupB es = keysNodupB es' := by
  induction es with
  | nil =>
      intro es' h
      cases es' with
      | nil => rfl
      | cons kv rest => simp at h
  | cons kv rest ih =>
      intro es' h
      cases es' with
      | nil => simp at h
      | cons kv' rest' =>
          obtain ⟨k, v⟩ := kv
          obtain ⟨k', v'⟩ := kv'
          simp only [List.map_cons, List.cons.injEq] at h
          rw [keysNodupB, keysNodupB, hasKey_eq_keys_contains, hasKey_eq_keys_contains,
            h.2, ih rest' h.2, h.1]

theorem llmCollect_stash (ds : List (String × Val))
    (h : ∀ kv ∈ ds, kv.1 ≠ "models" ∧ kv.1 ≠ "_dynamic_fields") :
    ∀ (m : Option Val) (dslot : Option (List (String × Val)))
      (acc : List (String × Val)),
      llmCollect ds m dslot acc = .ok (m, dslot, acc.reverse ++ ds) := by
  induction ds with
  | nil => intro m dslot acc; simp [llmCollect]
  | cons kv rest ih =>
      intro m dslot acc
      obtain ⟨k, v⟩ := kv
      have hk := h (k, v) (List.mem_cons_self _ _)
      rw [llmCollect]
      rw [if_neg hk.1, if_neg hk.2]
      rw [ih (fun kv0 h0 => h kv0 (List.mem_cons_of_mem _ h0)) m dslot ((k, v) :: acc)]
      rw [List.reverse_cons, List.append_assoc]
      rfl

theorem translatorCollect_stash (ds : List (String × Val))
    (h : ∀ kv ∈ ds, kv.1 ≠ "api_based" ∧ kv.1 ≠ "local_llm" ∧ kv.1 ≠ "now_using" ∧
      kv.1 ≠ "_dynamic_fields") :
    ∀ (ini : TranslatorInit) (acc : List (String × Val)),
      translatorCollect ds ini acc = .ok (ini, acc.reverse ++ ds) := by
  induction ds with
  | nil => intro ini acc; simp [translatorCollect]
  | cons kv rest ih =>
      intro ini acc
      obtain ⟨k, v⟩ := kv
      have hk := h (k, v) (List.mem_cons_self _ _)
      have ih' := ih (fun kv0 h0 => h kv0 (List.mem_cons_of_mem _ h0))
      cases v <;>
        (rw [translatorCollect, if_neg hk.1, if_neg hk.2.1, if_neg hk.2.2.1,
          if_neg hk.2.2.2, ih' ini, List.reverse_cons, List.append_assoc]) <;>
        first
          | rfl
          | (intro es hx; exact Val.noConfusion hx)

theorem settingsCollect_stash (ds : List (String × Val))
    (h : ∀ kv ∈ ds, kv.1 ≠ "js_path" ∧ kv.1 ≠ "js_scripts_path" ∧ kv.1 ≠ "work_dir" ∧
      kv.1 ≠ "translator" ∧ kv.1 ≠ "_dynamic_fields") :
    ∀ (ini : SettingsInit) (acc : List (String × Val)),
      settingsCollect ds ini acc = .ok (ini, acc.reverse ++ ds) := by
  induction ds with
  | nil => intro ini acc; simp [settingsCollect]
  | cons kv rest ih =>
      intro ini acc
      obtain ⟨k, v⟩ := kv
      have hk := h (k, v) (List.mem_cons_self _ _)
      have ih' := ih (fun kv0 h0 => h kv0 (List.mem_cons_of_mem _ h0))
      cases v <;>
        (rw [settingsCollect, if_neg hk.1, if_neg hk.2.1, if_neg hk.2.2.1,
          if_neg hk.2.2.2.1, if_neg hk.2.2.2.2, ih' ini, List.reverse_cons,
          List.append_assoc]) <;>
        first
          | rfl
          | (intro es hx; exact Val.noConfusion hx)

/-- A serialized selector pair decodes back to the same selectors, with an
unset back-reference (the enclosing `Translator.__post_init__` rewires it)
and empty dynamic fields. -/
theorem nowusing_roundtrip (c m : Val) (hc : c.isDict = false) (hm : m.isDict = false) :
    dict_to_dataclass_NowUsing [("category", c), ("name", m)] =
      .ok ⟨c, m, Option.none, []⟩ := by
  have hcol : nowUsingCollect [("category", c), ("name", m)] Option.none Option.none [] =
      .ok (Option.none, Option.none, [("category", c), ("name", m)]) := rfl
  have h1 : DynamicDataclass.wrapValue c = .ok c := wrapValue_of_not_dict c hc
  have h2 : DynamicDataclass.wrapValue m = .ok m := wrapValue_of_not_dict m hm
  rw [dict_to_dataclass_NowUsing, hcol]
  simp only [bind, Except.bind, Option.getD]
  rw [show NowUsing.construct (Val.str "api_based") (Val.str "DeepSeek") =
    .ok ⟨.str "api_based", .str "DeepSeek", Option.none, []⟩ from rfl]
  dsimp only
  rw [List.foldlM_cons]
  rw [show NowUsing.setattr ⟨Val.str "api_based", Val.str "DeepSeek", Option.none, []⟩
      "category" c = (DynamicDataclass.wrapValue c).map
        (fun w => ⟨w, Val.str "DeepSeek", Option.none, []⟩) from rfl]
  rw [h1]
  simp only [Except.map, bind, Except.bind]
  rw [List.foldlM_cons]
  rw [show NowUsing.setattr ⟨c, Val.str "DeepSeek", Option.none, []⟩ "name" m =
    (DynamicDataclass.wrapValue m).map (fun w => ⟨c, w, Option.none, []⟩) from rfl]
  rw [h2]
  rfl

theorem mem_encodeDynamics_key (dyns : List (String × Val))
    (hpar : ∀ kv ∈ dyns, kv.1 ≠ "_parent_translator")
    (kv : String × Val) (hkv : kv ∈ encodeDynamics dyns) :
    ∃ kv0 ∈ dyns, kv.1 = kv0.1 := by
  rw [encodeDynamics_eq_map dyns hpar] at hkv
  obtain ⟨kv0, h0, hEq⟩ := List.mem_map.mp hkv
  exact ⟨kv0, h0, by rw [← hEq]⟩

/-- An `rtValid` `LLMSettings` node decodes from its own encoding back to
itself. -/
theorem llm_roundtrip (l : LLMSettings) (h : l.rtValid = true) :
    dict_to_dataclass_LLMSettings
      (pyUpdate [("models", dataclass_to_dict_field l.models)]
        (encodeDynamics l._dynamic_fields)) = .ok l := by
  simp only [LLMSettings.rtValid, Bool.and_eq_true] at h
  obtain ⟨hm, hd⟩ := h
  obtain ⟨hnd, hprops⟩ := dynFieldsOK_props _ _ hd
  have hpar : ∀ kv ∈ l._dynamic_fields, kv.1 ≠ "_parent_translator" :=
    fun kv hkv => (hprops kv hkv).2.1
  have hkeyeq := keys_encodeDynamics l._dynamic_fields hpar
  have hndE : keysNodupB (encodeDynamics l._dynamic_fields) = true := by
    rw [keysNodupB_eq_of_keys_eq _ l._dynamic_fields hkeyeq]
    exact hnd
  have hstash : ∀ kv ∈ encodeDynamics l._dynamic_fields,
      kv.1 ≠ "models" ∧ kv.1 ≠ "_dynamic_fields" := by
    intro kv hkv
    obtain ⟨kv0, h0, hEq⟩ := mem_encodeDynamics_key _ hpar kv hkv
    have hk0 := (hprops kv0 h0).1
    constructor <;> (rw [hEq]; intro hcon; apply hk0; rw [hcon]; simp)
  have hdisj : ∀ kv ∈ encodeDynamics l._dynamic_fields,
      hasKey [("models", dataclass_to_dict_field l.models)] kv.1 = false := by
    intro kv hkv
    have := (hstash kv hkv).1
    simp [hasKey, lookupEntries, Ne.symm this]
  have hba := pyUpdate_append (encodeDynamics l._dynamic_fields) _ hndE hdisj
  rw [hba]
  obtain ⟨mid, hmid, hwrap⟩ := field_roundtrip l.models hm
  have hcol : llmCollect (("models", dataclass_to_dict_field l.models) ::
      encodeDynamics l._dynamic_fields) Option.none Option.none [] =
      .ok (some mid, Option.none, encodeDynamics l._dynamic_fields) := by
    rw [llmCollect, if_pos rfl, hmid]
    dsimp only [bind, Except.bind]
    exact llmCollect_stash _ hstash _ _ []
  rw [show ([("models", dataclass_to_dict_field l.models)] ++
    encodeDynamics l._dynamic_fields) = ("models", dataclass_to_dict_field l.models) ::
    encodeDynamics l._dynamic_fields from rfl]
  rw [dict_to_dataclass_LLMSettings, hcol]
  dsimp only [bind, Except.bind, Option.getD]
  rw [hwrap]
  dsimp only [bind, Except.bind]
  rw [dynamics_roundtrip _ _ hd [] (fun kv _ => rfl)]
  rfl

theorem hasKey_eq_false_of_forall_ne (es : List (String × Val)) (k : String)
    (h : ∀ kv ∈ es, kv.1 ≠ k) : hasKey es k = false := by
  induction es with
  | nil => rfl
  | cons kv rest ih =>
      obtain ⟨a, b⟩ := kv
      have ha : a ≠ k := h (a, b) (List.mem_cons_self _ _)
      simp only [hasKey, lookupEntries, ha, if_false]
      exact ih (fun kv0 h0 => h kv0 (List.mem_cons_of_mem _ h0))

/-- An `rtValid` `Translator` node whose back-reference is wired and whose
`api_based` collection is stable under reconstruction decodes from its own
encoding back to itself. -/
theorem translator_roundtrip (t : Translator) (hv : t.rtValid = true)
    (hwired : t.now_using._parent_translator =
      some ⟨t.api_based, t.local_llm.models⟩)
    (happ : APIBased.construct (toDictEntries t.api_based) = .ok t.api_based) :
    dict_to_dataclass_Translator
      (pyUpdate
        [("api_based", .dict (toDictEntries t.api_based)),
         ("local_llm", dataclass_to_dict_LLMSettings t.local_llm),
         ("now_using", .dict t.now_using.to_dict)]
        (encodeDynamics t._dynamic_fields)) = .ok t := by
  obtain ⟨api, llm, nu, tdyns⟩ := t
  obtain ⟨c, m, par, ndyn⟩ := nu
  simp only [Translator.rtValid, NowUsing.rtValid, Bool.and_eq_true,
    Bool.not_eq_true'] at hv
  obtain ⟨⟨⟨htype, hllm⟩, ⟨⟨hcd, hmd⟩, hnd0⟩⟩, hd⟩ := hv
  have hndyn : ndyn = [] := by
    cases ndyn with
    | nil => rfl
    | cons x xs => simp at hnd0
  subst hndyn
  simp only at hwired
  obtain ⟨hndk, hprops⟩ := dynFieldsOK_props _ _ hd
  have hpar : ∀ kv ∈ tdyns, kv.1 ≠ "_parent_translator" :=
    fun kv hkv => (hprops kv hkv).2.1
  have hkeyeq := keys_encodeDynamics tdyns hpar
  have hndE : keysNodupB (encodeDynamics tdyns) = true := by
    rw [keysNodupB_eq_of_keys_eq _ tdyns hkeyeq]
    exact hndk
  have hstash : ∀ kv ∈ encodeDynamics tdyns, kv.1 ≠ "api_based" ∧
      kv.1 ≠ "local_llm" ∧ kv.1 ≠ "now_using" ∧ kv.1 ≠ "_dynamic_fields" := by
    intro kv hkv
    obtain ⟨kv0, h0, hEq⟩ := mem_encodeDynamics_key _ hpar kv hkv
    have hk0 := (hprops kv0 h0).1
    refine ⟨?_, ?_, ?_, ?_⟩ <;> (rw [hEq]; intro hcon; apply hk0; rw [hcon]; simp)
  have hdisj : ∀ kv ∈ encodeDynamics tdyns,
      hasKey [("api_based", Val.dict (toDictEntries api)),
        ("local_llm", dataclass_to_dict_LLMSettings llm),
        ("now_using", Val.dict (NowUsing.to_dict ⟨c, m, par, []⟩))] kv.1 = false := by
    intro kv hkv
    have hs := hstash kv hkv
    simp [hasKey, lookupEntries, Ne.symm hs.1, Ne.symm hs.2.1, Ne.symm hs.2.2.1]
  have hba := pyUpdate_append (encodeDynamics tdyns) _ hndE hdisj
  simp only at hba ⊢
  rw [hba]
  have htypeE : lookupEntries (toDictEntries api) "__type__" = Option.none := by
    have := hasKey_toDictEntries api "__type__"
    rw [htype] at this
    rw [hasKey] at this
    cases hl : lookupEntries (toDictEntries api) "__type__" with
    | none => rfl
    | some w => rw [hl] at this; cases this
  have hllmShape : dataclass_to_dict_LLMSettings llm =
      .dict (pyUpdate [("models", dataclass_to_dict_field llm.models)]
        (encodeDynamics llm._dynamic_fields)) := rfl
  have hllmType : lookupEntries (pyUpdate [("models", dataclass_to_dict_field llm.models)]
      (encodeDynamics llm._dynamic_fields)) "__type__" = Option.none := by
    have hk : hasKey (pyUpdate [("models", dataclass_to_dict_field llm.models)]
        (encodeDynamics llm._dynamic_fields)) "__type__" = false := by
      rw [hasKey_pyUpdate]
      have h1 : hasKey [("models", dataclass_to_dict_field llm.models)] "__type__" =
          false := rfl
      have hlp : ∀ kv ∈ llm._dynamic_fields, kv.1 ≠ "_parent_translator" := by
        simp only [LLMSettings.rtValid, Bool.and_eq_true] at hllm
        exact fun kv hkv => (dynFieldsOK_props _ _ hllm.2).2 kv hkv |>.2.1
      have h2 : hasKey (encodeDynamics llm._dynamic_fields) "__type__" = false := by
        apply hasKey_eq_false_of_forall_ne
        intro kv hkv
        obtain ⟨kv0, h0, hEq⟩ := mem_encodeDynamics_key _ hlp kv hkv
        simp only [LLMSettings.rtValid, Bool.and_eq_true] at hllm
        have := ((dynFieldsOK_props _ _ hllm.2).2 kv0 h0).2.2.1
        rw [hEq]
        exact this
      rw [h1, h2]
      rfl
    rw [hasKey] at hk
    cases hl : lookupEntries (pyUpdate [("models", dataclass_to_dict_field llm.models)]
        (encodeDynamics llm._dynamic_fields)) "__type__" with
    | none => rfl
    | some w => rw [hl] at hk; cases hk
  have hcol : translatorCollect
      (("api_based", Val.dict (toDictEntries api)) ::
        ("local_llm", Val.dict (pyUpdate
          [("models", dataclass_to_dict_field llm.models)]
          (encodeDynamics llm._dynamic_fields))) ::
        ("now_using", Val.dict [("category", c), ("name", m)]) ::
        encodeDynamics tdyns) {} [] =
      .ok ({ api := some api, llm := some llm, nu := some ⟨c, m, Option.none, []⟩,
             dslot := Option.none }, encodeDynamics tdyns) := by
    rw [translatorCollect, if_pos rfl]
    rw [htypeE]
    dsimp only [Option.isSome]
    rw [if_neg (by simp), happ]
    dsimp only [bind, Except.bind]
    rw [translatorCollect]
    rw [if_neg (by decide), if_pos rfl]
    rw [hllmType]
    dsimp only [Option.isSome]
    rw [if_neg (by simp)]
    rw [llm_roundtrip llm hllm]
    dsimp only [bind, Except.bind]
    rw [translatorCollect]
    rw [if_neg (by decide), if_neg (by decide), if_pos rfl]
    rw [show lookupEntries [("category", c), ("name", m)] "__type__" = Option.none from rfl]
    dsimp only [Option.isSome]
    rw [if_neg (by simp)]
    rw [nowusing_roundtrip c m hcd hmd]
    dsimp only [bind, Except.bind]
    exact translatorCollect_stash _ hstash _ []
  rw [show ([("api_based", Val.dict (toDictEntries api)),
      ("local_llm", dataclass_to_dict_LLMSettings llm),
      ("now_using", Val.dict (NowUsing.to_dict ⟨c, m, par, []⟩))] ++
      encodeDynamics tdyns) =
    (("api_based", Val.dict (toDictEntries api)) ::
      ("local_llm", Val.dict (pyUpdate
        [("models", dataclass_to_dict_field llm.models)]
        (encodeDynamics llm._dynamic_fields))) ::
      ("now_using", Val.dict [("category", c), ("name", m)]) ::
      encodeDynamics tdyns) from rfl]
  rw [dict_to_dataclass_Translator, hcol]
  dsimp only [bind, Except.bind, Option.getD]
  rw [show (pure api : Except PyErr (List (String × Val))) = Except.ok api from rfl]
  dsimp only
  rw [show Translator.construct api llm ⟨c, m, Option.none, []⟩ [] =
    (⟨api, llm, ⟨c, m, some ⟨api, llm.models⟩, []⟩, []⟩ : Translator) from rfl]
  dsimp only
  rw [dynamics_roundtrip _ _ hd [] (fun kv _ => rfl)]
  dsimp only [List.nil_append]
  rw [hwired]

theorem settingsCollect_js_path (v mid : Val)
    (hmid : dict_to_dataclass_fieldVal v = .ok mid)
    (rest : List (String × Val)) (ini : SettingsInit) (acc : List (String × Val)) :
    settingsCollect (("js_path", v) :: rest) ini acc =
      settingsCollect rest { ini with js_path := some mid } acc := by
  cases v <;>
    (rw [settingsCollect, if_pos rfl, hmid]) <;>
    first
      | rfl
      | (intro es hx; exact Val.noConfusion hx)

theorem settingsCollect_js_scripts_path (v mid : Val)
    (hmid : dict_to_dataclass_fieldVal v = .ok mid)
    (rest : List (String × Val)) (ini : SettingsInit) (acc : List (String × Val)) :
    settingsCollect (("js_scripts_path", v) :: rest) ini acc =
      settingsCollect rest { ini with js_scripts_path := some mid } acc := by
  cases v <;>
    (rw [settingsCollect, if_neg (by decide), if_pos rfl, hmid]) <;>
    first
      | rfl
      | (intro es hx; exact Val.noConfusion hx)

theorem settingsCollect_work_dir (v mid : Val)
    (hmid : dict_to_dataclass_fieldVal v = .ok mid)
    (rest : List (String × Val)) (ini : SettingsInit) (acc : List (String × Val)) :
    settingsCollect (("work_dir", v) :: rest) ini acc =
      settingsCollect rest { ini with work_dir := some mid } acc := by
  cases v <;>
    (rw [settingsCollect, if_neg (by decide), if_neg (by decide), if_pos rfl, hmid]) <;>
    first
      | rfl
      | (intro es hx; exact Val.noConfusion hx)

/-- Claim C1 as amended: the serializer round trip
`dict_to_dataclass(dataclass_to_dict(T), Settings) = T` holds for every
tree `T` built from valid inputs — formally: every component satisfies the
round-trip validity predicate (`Settings.rtValid`), the selector's
back-reference is wired to its own translator node, and the `api_based`
collection is stable under reconstruction from its serialized form
(`APIBased(data)` re-populates the built-in defaults first, so a tree with
a default service removed or displaced — which the claim's quantification
includes via `remove_service` — does NOT round-trip; see the
counterexample). -/
theorem c1_roundtrip_amended (T : Settings) (hv : T.rtValid = true)
    (hwired : T.translator.now_using._parent_translator =
      some ⟨T.translator.api_based, T.translator.local_llm.models⟩)
    (happ : APIBased.construct (toDictEntries T.translator.api_based) =
      .ok T.translator.api_based) :
    dict_to_dataclass_Settings (dataclass_to_dict_Settings T) = .ok T := by
  obtain ⟨jp, jsp, wd, tr, sdyns⟩ := T
  simp only [Settings.rtValid, Bool.and_eq_true] at hv
  obtain ⟨⟨⟨⟨hjp, hjsp⟩, hwd⟩, htr⟩, hd⟩ := hv
  simp only at hwired happ
  obtain ⟨hndk, hprops⟩ := dynFieldsOK_props _ _ hd
  have hpar : ∀ kv ∈ sdyns, kv.1 ≠ "_parent_translator" :=
    fun kv hkv => (hprops kv hkv).2.1
  have hkeyeq := keys_encodeDynamics sdyns hpar
  have hndE : keysNodupB (encodeDynamics sdyns) = true := by
    rw [keysNodupB_eq_of_keys_eq _ sdyns hkeyeq]
    exact hndk
  have hstash : ∀ kv ∈ encodeDynamics sdyns, kv.1 ≠ "js_path" ∧
      kv.1 ≠ "js_scripts_path" ∧ kv.1 ≠ "work_dir" ∧ kv.1 ≠ "translator" ∧
      kv.1 ≠ "_dynamic_fields" := by
    intro kv hkv
    obtain ⟨kv0, h0, hEq⟩ := mem_encodeDynamics_key _ hpar kv hkv
    have hk0 := (hprops kv0 h0).1
    refine ⟨?_, ?_, ?_, ?_, ?_⟩ <;> (rw [hEq]; intro hcon; apply hk0; rw [hcon]; simp)
  have hdisj : ∀ kv ∈ encodeDynamics sdyns,
      hasKey [("js_path", dataclass_to_dict_field jp),
        ("js_scripts_path", dataclass_to_dict_field jsp),
        ("work_dir", dataclass_to_dict_field wd),
        ("translator", dataclass_to_dict_Translator tr)] kv.1 = false := by
    intro kv hkv
    have hs := hstash kv hkv
    simp [hasKey, lookupEntries, Ne.symm hs.1, Ne.symm hs.2.1, Ne.symm hs.2.2.1,
      Ne.symm hs.2.2.2.1]
  have hba := pyUpdate_append (encodeDynamics sdyns) _ hndE hdisj
  have htrType : lookupEntries (pyUpdate
      [("api_based", Val.dict (toDictEntries tr.api_based)),
       ("local_llm", dataclass_to_dict_LLMSettings tr.local_llm),
       ("now_using", Val.dict tr.now_using.to_dict)]
      (encodeDynamics tr._dynamic_fields)) "__type__" = Option.none := by
    have htrd : dynFieldsOK ["_dynamic_fields", "api_based", "local_llm", "now_using"]
        tr._dynamic_fields = true := by
      simp only [Translator.rtValid, Bool.and_eq_true] at htr
      exact htr.2
    have hk : hasKey (pyUpdate
        [("api_based", Val.dict (toDictEntries tr.api_based)),
         ("local_llm", dataclass_to_dict_LLMSettings tr.local_llm),
         ("now_using", Val.dict tr.now_using.to_dict)]
        (encodeDynamics tr._dynamic_fields)) "__type__" = false := by
      rw [hasKey_pyUpdate]
      have h1 : hasKey [("api_based", Val.dict (toDictEntries tr.api_based)),
          ("local_llm", dataclass_to_dict_LLMSettings tr.local_llm),
          ("now_using", Val.dict tr.now_using.to_dict)] "__type__" = false := rfl
      have hlp : ∀ kv ∈ tr._dynamic_fields, kv.1 ≠ "_parent_translator" :=
        fun kv hkv => ((dynFieldsOK_props _ _ htrd).2 kv hkv).2.1
      have h2 : hasKey (encodeDynamics tr._dynamic_fields) "__type__" = false := by
        apply hasKey_eq_false_of_forall_ne
        intro kv hkv
        obtain ⟨kv0, h0, hEq⟩ := mem_encodeDynamics_key _ hlp kv hkv
        rw [hEq]
        exact ((dynFieldsOK_props _ _ htrd).2 kv0 h0).2.2.1
      rw [h1, h2]
      rfl
    rw [hasKey] at hk
    cases hl : lookupEntries (pyUpdate
        [("api_based", Val.dict (toDictEntries tr.api_based)),
         ("local_llm", dataclass_to_dict_LLMSettings tr.local_llm),
         ("now_using", Val.dict tr.now_using.to_dict)]
        (encodeDynamics tr._dynamic_fields)) "__type__" with
    | none => rfl
    | some w => rw [hl] at hk; cases hk
  obtain ⟨mjp, hmjp, hwjp⟩ := field_roundtrip jp hjp
  obtain ⟨mjsp, hmjsp, hwjsp⟩ := field_roundtrip jsp hjsp
  obtain ⟨mwd, hmwd, hwwd⟩ := field_roundtrip wd hwd
  have hcol : settingsCollect
      (("js_path", dataclass_to_dict_field jp) ::
        ("js_scripts_path", dataclass_to_dict_field jsp) ::
        ("work_dir", dataclass_to_dict_field wd) ::
        ("translator", Val.dict (pyUpdate
          [("api_based", Val.dict (toDictEntries tr.api_based)),
           ("local_llm", dataclass_to_dict_LLMSettings tr.local_llm),
           ("now_using", Val.dict tr.now_using.to_dict)]
          (encodeDynamics tr._dynamic_fields))) ::
        encodeDynamics sdyns) {} [] =
      .ok ({ js_path := some mjp, js_scripts_path := some mjsp, work_dir := some mwd,
             translator := some tr, dslot := Option.none }, encodeDynamics sdyns) := by
    rw [settingsCollect_js_path _ _ hmjp]
    rw [settingsCollect_js_scripts_path _ _ hmjsp]
    rw [settingsCollect_work_dir _ _ hmwd]
    rw [settingsCollect]
    rw [if_neg (by decide), if_neg (by decide), if_neg (by decide), if_pos rfl]
    rw [htrType]
    dsimp only [Option.isSome]
    rw [if_neg (by simp)]
    rw [translator_roundtrip tr htr hwired happ]
    dsimp only [bind, Except.bind]
    exact settingsCollect_stash _ hstash _ []
  rw [show dataclass_to_dict_Settings ⟨jp, jsp, wd, tr, sdyns⟩ =
    .dict (pyUpdate [("js_path", dataclass_to_dict_field jp),
      ("js_scripts_path", dataclass_to_dict_field jsp),
      ("work_dir", dataclass_to_dict_field wd),
      ("translator", dataclass_to_dict_Translator tr)]
      (encodeDynamics sdyns)) from rfl]
  rw [dict_to_dataclass_Settings, hba]
  rw [show ([("js_path", dataclass_to_dict_field jp),
      ("js_scripts_path", dataclass_to_dict_field jsp),
      ("work_dir", dataclass_to_dict_field wd),
      ("translator", dataclass_to_dict_Translator tr)] ++ encodeDynamics sdyns) =
    (("js_path", dataclass_to_dict_field jp) ::
      ("js_scripts_path", dataclass_to_dict_field jsp) ::
      ("work_dir", dataclass_to_dict_field wd) ::
      ("translator", Val.dict (pyUpdate
        [("api_based", Val.dict (toDictEntries tr.api_based)),
         ("local_llm", dataclass_to_dict_LLMSettings tr.local_llm),
         ("now_using", Val.dict tr.now_using.to_dict)]
        (encodeDynamics tr._dynamic_fields))) ::
      encodeDynamics sdyns) from rfl]
  rw [hcol]
  dsimp only [bind, Except.bind, Option.getD]
  rw [hwjp]
  dsimp only [bind, Except.bind]
  rw [hwjsp]
  dsimp only [bind, Except.bind]
  rw [hwwd]
  dsimp only [bind, Except.bind]
  rw [show (pure tr : Except PyErr Translator) = Except.ok tr from rfl]
  dsimp only
  rw [dynamics_roundtrip _ _ hd [] (fun kv _ => rfl)]
  dsimp only [List.nil_append]

/-- Claim C1, counterexample: the default tree with the built-in `DeepL`
service removed through `remove_service` (a tree the claim's
quantification includes) does not round-trip: decoding its serialized form
re-populates `DeepL`, so the result differs from the input. -/
theorem c1_counterexample :
    hasKey treeWithoutDeepL.translator.api_based "DeepL" = false ∧
    dict_to_dataclass_Settings (dataclass_to_dict_Settings treeWithoutDeepL) ≠
      .ok treeWithoutDeepL := by
  refine ⟨rfl, ?_⟩
  intro h
  have h2 := congrArg decodedHasDeepL h
  rw [show decodedHasDeepL (dict_to_dataclass_Settings
      (dataclass_to_dict_Settings treeWithoutDeepL)) = true from rfl] at h2
  rw [show decodedHasDeepL (.ok treeWithoutDeepL) = false from rfl] at h2
  cases h2

theorem c1_witness :
    dict_to_dataclass_Settings (dataclass_to_dict_Settings c1WitnessTree) =
      .ok c1WitnessTree :=
  c1_roundtrip_amended c1WitnessTree (by rfl) (by rfl) (by rfl)
